import Mathlib

/-!
The connection node of node-red-mcprotocol-read.

A shallow embedding of `src/nodes/connection.js`: the connection state machine
(`onConnectionChange`, the connect-error handler, `reconnect`, `connectToPLC`,
`connectCallback`, the close handler) and the read queue
(`readDataByAddressArray`, `doRead` with its timeout timer and `wrappedCallback`).

The node runs on a single-threaded event loop.  Every handler of the source is a
function `Node → Node` that runs to its end, or to the statement at which the
node's own code throws (`anythingBad.toString()` on a value without a callable
`toString`); the event loop is the step function `step`, whose events are the
entry points through which the outside world (collaborators, the codec,
timers) calls into the node.

The reads node of `src/nodes/reads.js` (`changeNodeStatus`, `valuesReady`,
`handleError`) follows in the same style: its handlers are functions on
`ReadsNode`, and what it sends, warns and reports is recorded in `out`.

What is outside `src/` is kept abstract:
* the codec (`mcprotocol`) is a black box.  Calls into it are recorded in the
  trace; its connection indicator `isoConnectionState` changes only through the
  event `codecState`; it invokes a read callback at most once and never from
  inside the call that registers it; `addItems` and `readAllItems` do not throw;
  it does not assign `globalTimeout`, which keeps the value given at line 16;
* continuations (`valuesReady`) are recorded in the trace with the submission
  index of their request; they do not throw and do not call back into the node.
-/

namespace MCConnection

/-! ## JavaScript values -/

/-- Scalar JavaScript values.  Numbers are the integers and `NaN`; a finite
non-integer number behaves like a non-zero integer wherever the node looks at it
except in its text. -/
inductive Scalar where
  | undefined
  | null
  | bool (b : Bool)
  | num (n : Int)
  | nan
  | str (s : String)
  deriving DecidableEq, Repr

/-- JavaScript values as far as the node inspects them: scalars, arrays of
scalars, plain objects with their own enumerable properties, which are scalars,
and error objects (`new Error(message)` and its subclasses, `name` being the
`name` they inherit), which have no enumerable property of their own. -/
inductive JsVal where
  | undefined
  | null
  | bool (b : Bool)
  | num (n : Int)
  | nan
  | str (s : String)
  | arr (items : List Scalar)
  | obj (props : List (String × Scalar))
  | error (name : String) (message : String)
  deriving DecidableEq, Repr

/-- The results of `typeof` that occur for `JsVal`. -/
inductive JsType where
  | undefined
  | object
  | boolean
  | number
  | string
  deriving DecidableEq, Repr

/-- JavaScript `typeof`. -/
def typeof : JsVal → JsType
  | .undefined => .undefined
  | .null => .object
  | .bool _ => .boolean
  | .num _ => .number
  | .nan => .number
  | .str _ => .string
  | .arr _ => .object
  | .obj _ => .object
  | .error _ _ => .object

/-- JavaScript truthiness (`if (v)`, `v || d`). -/
def truthy : JsVal → Bool
  | .undefined => false
  | .null => false
  | .bool b => b
  | .num n => n != 0
  | .nan => false
  | .str s => s.data != []
  | .arr _ => true
  | .obj _ => true
  | .error _ _ => true

/-- JavaScript `a || b`. -/
def jsOr (a b : JsVal) : JsVal :=
  if truthy a then a else b

/-- The text of an integer-valued number (`Number.prototype.toString`): the
decimal digits below `10^21`, the exponent form `d.ddde+x` from there on.  The
digits of the exponent form are those of the integer without its trailing
zeros, which are the digits JavaScript prints when there are at most fifteen of
them. -/
def numberText (n : Int) : List Char :=
  let sign := if n < 0 then "-".data else []
  let digits := (toString n.natAbs).data
  if digits.length ≤ 21 then sign ++ digits
  else
    let significant := (digits.reverse.dropWhile (fun c => c == '0')).reverse
    let mantissa :=
      match significant with
      | [] => []
      | d :: [] => [d]
      | d :: rest => d :: '.' :: rest
    sign ++ mantissa ++ "e+".data ++ (toString (digits.length - 1)).data

/-- The text of a scalar inside `Array.prototype.join`. -/
def Scalar.text : Scalar → List Char
  | .undefined => []
  | .null => []
  | .bool b => if b then "true".data else "false".data
  | .num n => numberText n
  | .nan => "NaN".data
  | .str s => s.data

/-- The text of an error object (`Error.prototype.toString`). -/
def errorText (name message : String) : List Char :=
  if name.data = [] then message.data
  else if message.data = [] then name.data
  else name.data ++ ": ".data ++ message.data

/-- JavaScript `v.toString()` as a list of characters; `none` when the call
throws a `TypeError`: `undefined` and `null` have no properties, and an own
property `toString` of a plain object shadows `Object.prototype.toString` with
a scalar, which cannot be called. -/
def jsToString : JsVal → Option (List Char)
  | .undefined => none
  | .null => none
  | .bool b => some (if b then "true".data else "false".data)
  | .num n => some (numberText n)
  | .nan => some "NaN".data
  | .str s => some s.data
  | .arr items => some (",".data.intercalate (items.map Scalar.text))
  | .obj props =>
    if props.any (fun p => p.1 == "toString") then none else some "[object Object]".data
  | .error name message => some (errorText name message)

/-- The expression `anythingBad.toString()` inside `if (anythingBad)` (line 198
of `connection.js`, line 110 of `reads.js`) throws. -/
def toStringThrows (anythingBad : JsVal) : Bool :=
  truthy anythingBad && (jsToString anythingBad).isNone

/-- Lower-casing of the ASCII letters.  On the four needles of the error
classification it agrees with JavaScript `toLowerCase`: the only non-ASCII
characters whose lower case contains an ASCII letter are U+212A (to `k`, which
occurs in no needle) and U+0130 (to `i` followed by U+0307, and no needle ends in `i`). -/
def toLowerCase (s : List Char) : List Char :=
  s.map Char.toLower

/-- JavaScript `s.includes(needle)`. -/
def includes (s : List Char) (needle : String) : Bool :=
  s.tails.any (fun t => needle.data.isPrefixOf t)

/-- The connection-loss vocabulary test of `wrappedCallback` (lines 198-202),
for a value whose `toString()` returns. -/
def isConnectionError (anythingBad : JsVal) : Bool :=
  match jsToString anythingBad with
  | some text =>
    let errorStr := toLowerCase text
    includes errorStr "not connected" || includes errorStr "connection" ||
      includes errorStr "disconnected" || includes errorStr "timeout"
  | none => false

/-! ## State -/

/-- The values of `node.conStatus`: the string literals `'disconnected'`,
`'connecting'`, `'connected'` and `'error'`. -/
inductive ConStatus where
  | disconnected
  | connecting
  | connected
  | error
  deriving DecidableEq, Repr

/-- A read request `{ addressArray, valuesReady }`.  The continuation is
represented by `id`, the index of the request in submission order. -/
structure Request where
  id : Nat
  addressArray : List String
  deriving DecidableEq, Repr

/-- What the node does to the outside world, in the order in which it happens. -/
inductive Action where
  | emit (connectionStatus : ConStatus)
  | nodeError (msg : String)
  | consoleWarn
  | origConnectError (msg : String)
  | dropConnection
  | initiateConnection
  | addItems (addressArray : List String)
  | removeItems (addressArray : List String)
  | readAllItems (op : Nat)
  | valuesReady (request : Nat) (anythingBad : JsVal) (values : JsVal)
  | removeAllListeners
  deriving DecidableEq, Repr

/-- One activation of `doRead` that reached the codec: its closure variable
`timeoutHit`, whether its timeout timer is armed (set, neither fired nor
cleared) and whether the codec still owes a call of its `wrappedCallback`. -/
structure Op where
  request : Request
  timeoutMs : JsVal
  timeoutHit : Bool
  timerArmed : Bool
  callbackPending : Bool
  deriving DecidableEq, Repr

/-- The connection node together with the event loop around it. -/
structure Node where
  conStatus : ConStatus
  isBusy : Bool
  globalTimeout : JsVal
  isoConnectionState : Nat
  readQueue : List Request
  ops : List Op
  immediates : List Request
  reconnectTimers : Nat
  submitted : Nat
  trace : List Action
  deriving DecidableEq, Repr

/-- The part of the node configuration that the read queue uses. -/
structure Config where
  timeout : JsVal
  deriving DecidableEq, Repr

/-- Append an action to the trace. -/
def record (node : Node) (a : Action) : Node :=
  { node with trace := node.trace ++ [a] }

/-! ## Connection state machine -/

/-- Lines 20-29. -/
def onConnectionChange (node : Node) (conStatus : ConStatus) : Node :=
  if node.conStatus ≠ conStatus then
    record { node with conStatus := conStatus } (.emit conStatus)
  else node

/-- The handler that `enhancedMCProtocolErrorHandling(connectError, reconnect)`
returns (lines 40-48), installed as the codec's `connectError`: the original
`connectError` is a codec call, the timer it arms runs `reconnect`. -/
def enhancedMCProtocolErrorHandling (node : Node) (message : String) : Node :=
  let node := record node (.nodeError ("PLC Connection error:" ++ message))
  let node := onConnectionChange node .error
  let node := record node (.origConnectError message)
  { node with reconnectTimers := node.reconnectTimers + 1 }

/-- How the two codec calls inside the `try` of `reconnect` end. -/
inductive LinkOutcome where
  | ok
  | dropThrows (message : String)
  | initiateThrows (message : String)
  deriving DecidableEq, Repr

/-- Lines 54-66. -/
def reconnect (node : Node) (outcome : LinkOutcome) : Node :=
  if node.conStatus ≠ .connecting then
    let node := onConnectionChange node .connecting
    let node := record node .dropConnection
    match outcome with
    | .ok => record node .initiateConnection
    | .dropThrows message =>
      onConnectionChange
        (record node (.nodeError ("Failed to initiate connection: " ++ message))) .disconnected
    | .initiateThrows message =>
      onConnectionChange
        (record (record node .initiateConnection)
          (.nodeError ("Failed to initiate connection: " ++ message))) .disconnected
  else node

/-- Lines 108-114. -/
def connectToPLC (node : Node) : Node :=
  if node.conStatus ≠ .connected ∧ node.conStatus ≠ .connecting then
    let node := record node .dropConnection
    let node := onConnectionChange node .connecting
    record node .initiateConnection
  else node

/-- Lines 120-126. -/
def connectCallback (node : Node) (result : JsVal) : Node :=
  if typeof result ≠ .undefined then
    onConnectionChange node .disconnected
  else
    onConnectionChange node .connected

/-- The close handler, lines 226-232 (`node.mcprotocol` is always set). -/
def onClose (node : Node) : Node :=
  let node := record node .dropConnection
  let node := onConnectionChange node .disconnected
  record node .removeAllListeners

/-! ## Read queue -/

/-- The block that ends each of the three completion paths (lines 161-164,
185-188, 217-220): shift the oldest request off `readQueue` and hand it to
`setImmediate`. -/
def continueQueue (node : Node) : Node :=
  match node.readQueue with
  | [] => node
  | next :: rest => { node with readQueue := rest, immediates := node.immediates ++ [next] }

/-- Line 152. -/
def timeoutMs (globalTimeout : JsVal) : JsVal :=
  if typeof globalTimeout = .number then globalTimeout else .num 4500

/-- Lines 149-224, up to the return of `doRead`. -/
def doRead (node : Node) (request : Request) : Node :=
  let node := { node with isBusy := true }
  if node.isoConnectionState ≠ 4 then
    let node := onConnectionChange node .disconnected
    let node := { node with isBusy := false }
    let node := record node (.valuesReady request.id (.str "Connection not available") .null)
    continueQueue node
  else
    let node := record node (.addItems request.addressArray)
    let op : Op :=
      { request := request, timeoutMs := timeoutMs node.globalTimeout,
        timeoutHit := false, timerArmed := true, callbackPending := true }
    let node := record node (.readAllItems node.ops.length)
    { node with ops := node.ops ++ [op] }

/-- Lines 136-143.  The request gets the next submission index. -/
def readDataByAddressArray (node : Node) (addressArray : List String) : Node :=
  let request : Request := { id := node.submitted, addressArray := addressArray }
  let node := { node with submitted := node.submitted + 1 }
  if node.isBusy then
    { node with readQueue := node.readQueue ++ [request] }
  else
    doRead node request

/-- The timer callback of lines 173-189, for the activation `op` stored at
index `i`; `removeThrows` says whether `removeItems` throws. -/
def timeoutCallback (node : Node) (i : Nat) (op : Op) (removeThrows : Bool) : Node :=
  let node :=
    { node with ops := node.ops.set i { op with timeoutHit := true, timerArmed := false } }
  let node := { node with isBusy := false }
  let node := record node (.removeItems op.request.addressArray)
  let node := if removeThrows then record node .consoleWarn else node
  let node := record node (.valuesReady op.request.id (.str "Read operation timed out") .null)
  let node := onConnectionChange node .disconnected
  continueQueue node

/-- Lines 192-221, for the activation `op` stored at index `i`.  When
`anythingBad.toString()` throws at line 198 the `TypeError` leaves the callback
there, after `clearTimeout` and the release of `isBusy`. -/
def wrappedCallback (node : Node) (i : Nat) (op : Op) (anythingBad values : JsVal)
    (removeThrows : Bool) : Node :=
  if op.timeoutHit then
    { node with ops := node.ops.set i { op with callbackPending := false } }
  else
    let node :=
      { node with
        ops := node.ops.set i { op with callbackPending := false, timerArmed := false } }
    let node := { node with isBusy := false }
    if toStringThrows anythingBad then node
    else
      let node :=
        if truthy anythingBad && isConnectionError anythingBad then
          onConnectionChange node .disconnected
        else node
      let node := record node (.removeItems op.request.addressArray)
      let node := if removeThrows then record node .consoleWarn else node
      let node := record node (.valuesReady op.request.id anythingBad values)
      continueQueue node

/-! ## Event loop -/

/-- The entry points into the node. -/
inductive Event where
  | submit (addressArray : List String)
  | codecComplete (op : Nat) (anythingBad : JsVal) (values : JsVal) (removeThrows : Bool)
  | readTimeout (op : Nat) (removeThrows : Bool)
  | dispatch
  | codecState (isoConnectionState : Nat)
  | connectError (message : String)
  | reconnectTimer (outcome : LinkOutcome)
  | connectCallback (result : JsVal)
  | close
  deriving DecidableEq, Repr

/-- One turn of the event loop; `none` when the event cannot happen in this
state (no such callback registered, timer not armed, nothing deferred). -/
def step (node : Node) : Event → Option Node
  | .submit addressArray => some (readDataByAddressArray node addressArray)
  | .codecComplete i anythingBad values removeThrows =>
    match node.ops[i]? with
    | some op =>
      if op.callbackPending then some (wrappedCallback node i op anythingBad values removeThrows)
      else none
    | none => none
  | .readTimeout i removeThrows =>
    match node.ops[i]? with
    | some op => if op.timerArmed then some (timeoutCallback node i op removeThrows) else none
    | none => none
  | .dispatch =>
    match node.immediates with
    | next :: rest => some (doRead { node with immediates := rest } next)
    | [] => none
  | .codecState n => some { node with isoConnectionState := n }
  | .connectError message => some (enhancedMCProtocolErrorHandling node message)
  | .reconnectTimer outcome =>
    if 0 < node.reconnectTimers then
      some (reconnect { node with reconnectTimers := node.reconnectTimers - 1 } outcome)
    else none
  | .connectCallback result => some (connectCallback node result)
  | .close => some (onClose node)

/-- Run a sequence of events. -/
def run (node : Node) : List Event → Option Node
  | [] => some node
  | e :: es => (step node e).bind (fun node => run node es)

/-- The node as `mcConnectionNode(config)` leaves it (lines 8-130): the initial
fields, then the call `connectToPLC()` of line 103.  `iso` is the codec's
connection indicator at that time. -/
def mcConnectionNode (config : Config) (iso : Nat) : Node :=
  connectToPLC
    { conStatus := .disconnected
      isBusy := false
      globalTimeout := jsOr config.timeout (.num 4500)
      isoConnectionState := iso
      readQueue := []
      ops := []
      immediates := []
      reconnectTimers := 0
      submitted := 0
      trace := [] }

/-! ## Observations -/

/-- An activation is in flight: registered with the codec, neither completed
nor timed out. -/
def Op.inFlight (op : Op) : Bool :=
  op.callbackPending && !op.timeoutHit

/-- The requests in flight. -/
def inFlight (node : Node) : List Request :=
  (node.ops.filter Op.inFlight).map Op.request

/-- The submission indices of the continuations invoked, in order of invocation. -/
def invoked : List Action → List Nat
  | [] => []
  | .valuesReady id _ _ :: rest => id :: invoked rest
  | _ :: rest => invoked rest

/-- The action is an invocation of the continuation of request `id`. -/
def Action.deliversTo (id : Nat) : Action → Bool
  | .valuesReady request _ _ => request == id
  | _ => false

/-- How often the continuation of request `id` has been invoked. -/
def delivered (node : Node) (id : Nat) : Nat :=
  node.trace.countP (Action.deliversTo id)

/-- In how many places request `id` is waiting for its completion: in the
backlog, handed to `setImmediate`, or in flight. -/
def waiting (node : Node) (id : Nat) : Nat :=
  node.readQueue.countP (fun r => r.id == id) + node.immediates.countP (fun r => r.id == id) +
    node.ops.countP (fun op => op.inFlight && op.request.id == id)

/-- Number of link-open calls issued. -/
def linkOpens (trace : List Action) : Nat :=
  trace.count .initiateConnection

/-- Nothing is outstanding: no codec read, no timer, no deferred dispatch. -/
def quiescent (node : Node) : Prop :=
  node.immediates = [] ∧ ∀ op ∈ node.ops, op.callbackPending = false ∧ op.timerArmed = false

instance (node : Node) : Decidable (quiescent node) := by
  unfold quiescent
  infer_instance

/-! ## Invariants of the read queue -/

/-- An armed timeout timer belongs to an activation in flight. -/
def TimerOK (n : Node) : Prop :=
  ∀ op ∈ n.ops, op.timerArmed = true → op.inFlight = true

/-- While `isBusy` is set some activation is in flight. -/
def BusyOK (n : Node) : Prop :=
  n.isBusy = true → ∃ op ∈ n.ops, op.inFlight = true

/-- A non-empty backlog is never left alone: a deferred dispatch is pending
or an activation is in flight. -/
def QueueOK (n : Node) : Prop :=
  n.readQueue ≠ [] → n.immediates ≠ [] ∨ ∃ op ∈ n.ops, op.inFlight = true

/-- Every submitted request is in exactly one place: waiting, or completed
with its continuation invoked once. -/
def OnceOK (n : Node) : Prop :=
  ∀ id, waiting n id + delivered n id = if id < n.submitted then 1 else 0

/-- No request is in two places, none has its continuation invoked twice, and
nothing is known of a request that was not submitted. -/
def AtMostOnceOK (n : Node) : Prop :=
  ∀ id, waiting n id + delivered n id ≤ if id < n.submitted then 1 else 0

/-- The invocation `valuesReady('Read operation timed out', null)` of line 181. -/
def timedOutResult (id : Nat) : Action :=
  .valuesReady id (.str "Read operation timed out") .null

/-- An activation whose `timeoutHit` is set has reported the timeout. -/
def TimedOutOK (n : Node) : Prop :=
  ∀ op ∈ n.ops, op.timeoutHit = true → timedOutResult op.request.id ∈ n.trace

/-- The invariant of the read queue. -/
structure Inv (n : Node) : Prop where
  timer : TimerOK n
  busy : BusyOK n
  queue : QueueOK n
  once : OnceOK n
  timedOut : TimedOutOK n

/-- The part of the invariant that survives a callback that throws. -/
structure Core (n : Node) : Prop where
  timer : TimerOK n
  once : AtMostOnceOK n
  timedOut : TimedOutOK n

/-- The second state differs from the first only in the connection state
machine: the queue fields and `globalTimeout` agree and the trace grew by
actions that invoke no continuation. -/
structure Frame (n m : Node) : Prop where
  isBusy : m.isBusy = n.isBusy
  readQueue : m.readQueue = n.readQueue
  immediates : m.immediates = n.immediates
  ops : m.ops = n.ops
  submitted : m.submitted = n.submitted
  globalTimeout : m.globalTimeout = n.globalTimeout
  trace : ∃ extra, m.trace = n.trace ++ extra ∧ ∀ a ∈ extra, ∀ id, a.deliversTo id = false

/-- The state in which `doRead` leaves the fail-fast branch before it turns to the backlog. -/
def failedFast (n : Node) (r : Request) : Node :=
  record { onConnectionChange { n with isBusy := true } .disconnected with isBusy := false }
    (.valuesReady r.id (.str "Connection not available") .null)

/-- The state of `wrappedCallback` after `clearTimeout`, the release of
`isBusy` and the error classification. -/
def classified (n : Node) (i : Nat) (op : Op) (e : JsVal) : Node :=
  if truthy e && isConnectionError e then
    onConnectionChange
      { n with
        ops := n.ops.set i { op with callbackPending := false, timerArmed := false }
        isBusy := false } .disconnected
  else
    { n with
      ops := n.ops.set i { op with callbackPending := false, timerArmed := false }
      isBusy := false }

/-- Number of `submit` events. -/
def submits : List Event → Nat
  | [] => 0
  | .submit _ :: es => submits es + 1
  | _ :: es => submits es

/-- The states carried by the `mc-connection-change` events of a trace. -/
def emitted : List Action → List ConStatus
  | [] => []
  | .emit s :: rest => s :: emitted rest
  | _ :: rest => emitted rest

/-- The node after `onConnectionChange` has been called with each signal in turn. -/
def signalAll (node : Node) (signals : List ConStatus) : Node :=
  signals.foldl onConnectionChange node

/-- The signals that differ from the state recorded before them, `c` being
the state recorded before the first. -/
def changes (c : ConStatus) : List ConStatus → List ConStatus
  | [] => []
  | s :: rest => if s ≠ c then s :: changes s rest else changes c rest

/-- Every activation was armed with the timeout computed from `g`, the
value of `globalTimeout`. -/
def TimeoutOK (g : JsVal) (n : Node) : Prop :=
  n.globalTimeout = g ∧ ∀ op ∈ n.ops, op.timeoutMs = timeoutMs g

/-- The change events of the trace never repeat a state, and the last of
them carries the recorded `conStatus`. -/
def EmitOK (n : Node) : Prop :=
  List.Chain' (fun a b => a ≠ b) (emitted n.trace) ∧
    ∀ s, (emitted n.trace).getLast? = some s → s = n.conStatus

/-- The connection-loss vocabulary of the specification. -/
def vocabulary : List String :=
  ["not connected", "connection", "disconnected", "timeout"]

/-- The value `e` has a text, and its lower-cased text contains one of the
substrings of the vocabulary. -/
def ConnectionLoss (e : JsVal) : Prop :=
  ∃ text, jsToString e = some text ∧ ∃ needle ∈ vocabulary, needle.data <:+: toLowerCase text

instance (e : JsVal) : Decidable (ConnectionLoss e) := by
  unfold ConnectionLoss
  infer_instance

/-- The node without its trace. -/
def forgetTrace (n : Node) : Node :=
  { n with trace := [] }

/-- The event is not a codec completion at whose error `wrappedCallback`
throws: the handler it starts runs to its end. -/
def Event.returns : Event → Bool
  | .codecComplete _ anythingBad _ _ => !toStringThrows anythingBad
  | _ => true

/-! ## The reads node (`src/nodes/reads.js`) -/

/-- The characters that `String.prototype.trim` removes: the ECMAScript
white space and line terminator code points. -/
def jsWhiteSpace (c : Char) : Bool :=
  let n := c.toNat
  n == 0x09 || n == 0x0A || n == 0x0B || n == 0x0C || n == 0x0D || n == 0x20 || n == 0xA0 ||
    n == 0x1680 || (0x2000 ≤ n && n ≤ 0x200A) || n == 0x2028 || n == 0x2029 || n == 0x202F ||
    n == 0x205F || n == 0x3000 || n == 0xFEFF

/-- JavaScript `s.trim()`. -/
def jsTrim (s : List Char) : List Char :=
  ((s.dropWhile jsWhiteSpace).reverse.dropWhile jsWhiteSpace).reverse

/-- The truth value of the filter callback `name => name && name.trim()`
(lines 83 and 131). -/
def keepName (name : String) : Bool :=
  name.data != [] && jsTrim name.data != []

/-- The own properties of an object created by `{}`, in insertion order
(JavaScript enumerates integer-like keys first; nothing here depends on the order). -/
abbrev Props := List (String × Scalar)

/-- The assignment `obj[key] = value` on an object created by `{}`.  The key
`__proto__` is the accessor inherited from `Object.prototype`: assigning to it
creates no own property (a scalar other than `null` is ignored, `null` only
changes the prototype). -/
def setProp (obj : Props) (key : String) (value : Scalar) : Props :=
  if key = "__proto__" then obj
  else if obj.any (fun p => p.1 == key) then
    obj.map (fun p => if p.1 = key then (key, value) else p)
  else obj ++ [(key, value)]

/-- The payload of a message sent by the reads node. -/
inductive Payload where
  | null
  | object (props : Props)
  | array (items : List Props)
  deriving DecidableEq, Repr

/-- What the reads node does to the outside world (`timestamp` and `topic` of
a message are left out). -/
inductive ReadsAction where
  | status (fill : String) (shape : String) (text : String)
  | warn (text : String)
  | error (text : String)
  | send (payload : Payload) (error : Option String)
  deriving DecidableEq, Repr

/-- The test `node.outputFormat === 'json'`: `json` for `'json'` (the
default), `array` for every other value. -/
inductive OutputFormat where
  | json
  | array
  deriving DecidableEq, Repr

/-- The switch on `node.errorHandling`: `msg` for `'msg'`, `throwing` for
`'throw'` (the default) and every other value. -/
inductive ErrorHandling where
  | msg
  | throwing
  deriving DecidableEq, Repr

/-- The reads node.  `address` holds the `name` fields of `node.address`, taken
to be strings (an entry without a name counts as the empty string: the
filter drops both). -/
structure ReadsNode where
  conStatus : ConStatus
  outputFormat : OutputFormat
  errorHandling : ErrorHandling
  address : List String
  out : List ReadsAction
  deriving DecidableEq, Repr

/-- Append an action of the reads node. -/
def tell (node : ReadsNode) (a : ReadsAction) : ReadsNode :=
  { node with out := node.out ++ [a] }

/-- Lines 37-65. -/
def changeNodeStatus (node : ReadsNode) (connectionStatus : ConStatus) : ReadsNode :=
  let node :=
    match connectionStatus with
    | .connected => tell node (.status "green" "dot" "connected")
    | .disconnected => tell node (.status "red" "ring" "disconnected")
    | .connecting => tell node (.status "green" "ring" "connecting")
    | .error => tell node (.status "red" "dot" "error")
  { node with conStatus := connectionStatus }

/-- Lines 206-225.  The template literal converts `error` with its
`toString`; `handleError` is called after line 110 has called it. -/
def handleError (node : ReadsNode) (message : String) (error : JsVal) : ReadsNode :=
  let errorMsg := message ++ ": " ++ String.mk ((jsToString error).getD [])
  match node.errorHandling with
  | .msg => tell node (.send .null (some errorMsg))
  | .throwing => tell node (.error errorMsg)

/-- The element expression `values[index] !== undefined ? values[index] : null`. -/
def elementOrNull (items : List Scalar) (index : Nat) : Scalar :=
  match items[index]? with
  | some .undefined => .null
  | some value => value
  | none => .null

/-- The loop `addressArray.forEach((addr, index) => ...)` of lines 151-153,
from `index` on. -/
def assignEach (items : List Scalar) : Nat → List String → Props → Props
  | _, [], result => result
  | index, addr :: rest, result =>
    assignEach items (index + 1) rest (setProp result addr (elementOrNull items index))

/-- The loop of lines 171-175, from `index` on. -/
def pushEach (items : List Scalar) : Nat → List String → List Props → List Props
  | _, [], result => result
  | index, addr :: rest, result =>
    pushEach items (index + 1) rest (result ++ [setProp [] addr (elementOrNull items index)])

/-- A value that is neither an array nor an object, as a scalar. -/
def JsVal.scalar? : JsVal → Option Scalar
  | .undefined => some .undefined
  | .null => some .null
  | .bool b => some (.bool b)
  | .num n => some (.num n)
  | .nan => some .nan
  | .str s => some (.str s)
  | .arr _ => none
  | .obj _ => none
  | .error _ _ => none

/-- Lines 147-162: the object built in `'json'` format. -/
def jsonResult (addressArray : List String) (values : JsVal) : Props :=
  match values with
  | .arr items => assignEach items 0 addressArray []
  | .obj props => props.foldl (fun result p => setProp result p.1 p.2) []
  | .error _ _ => []
  | _ =>
    match addressArray, values.scalar? with
    | addr :: _, some value => setProp [] addr value
    | _, _ => []

/-- Lines 167-190: the array built in the other format. -/
def arrayResult (addressArray : List String) (values : JsVal) : List Props :=
  match values with
  | .arr items => pushEach items 0 addressArray []
  | .obj props => props.map (fun p => setProp [] p.1 p.2)
  | .error _ _ => []
  | _ =>
    match addressArray, values.scalar? with
    | addr :: _, some value => [setProp [] addr value]
    | _, _ => []

/-- The test `Array.isArray(values) && values.length === 0`. -/
def isEmptyArray : JsVal → Bool
  | .arr [] => true
  | _ => false

/-- Lines 102-198 of `reads.js`; the vocabulary test of lines 110-114 is the
expression of `connection.js`, `isConnectionError`.  When
`anythingBad.toString()` throws at line 110 the `TypeError` leaves the function
there. -/
def valuesReady (node : ReadsNode) (anythingBad values : JsVal) : ReadsNode :=
  if truthy anythingBad then
    if toStringThrows anythingBad then node
    else
      let node :=
        if isConnectionError anythingBad then
          tell { node with conStatus := .disconnected } (.status "red" "ring" "Connection Lost")
        else node
      handleError node "An error occurred while reading values from plc" anythingBad
  else
    let node :=
      if node.conStatus ≠ .connected then
        tell { node with conStatus := .connected } (.status "green" "ring" "connected")
      else node
    let addressArray := node.address.filter keepName
    if !truthy values || isEmptyArray values then
      let node := tell node (.warn "Received empty or null values from PLC")
      match node.outputFormat with
      | .json => tell node (.send (.object []) none)
      | .array => tell node (.send (.array []) none)
    else
      match node.outputFormat with
      | .json => tell node (.send (.object (jsonResult addressArray values)) none)
      | .array => tell node (.send (.array (arrayResult addressArray values)) none)

/-- A reads node as `mcReads(config)` leaves it, with the given format, error
handling and address names. -/
def mcReads (outputFormat : OutputFormat) (errorHandling : ErrorHandling)
    (address : List String) : ReadsNode :=
  { conStatus := .disconnected, outputFormat := outputFormat, errorHandling := errorHandling,
    address := address, out := [.status "red" "ring" "disconnected"] }

/-- The reads node after the status update of lines 126-129. -/
def markConnected (node : ReadsNode) : ReadsNode :=
  if node.conStatus ≠ .connected then
    tell { node with conStatus := .connected } (.status "green" "ring" "connected")
  else node

/-! ## Concrete runs -/

/-- A configuration without a timeout. -/
def plainConfig : Config := { timeout := .undefined }

/-- The codec connects; two requests are submitted; the read timeout of the
first fires; a third request is submitted; the deferred dispatch runs. -/
def overlapAfterTimeout : List Event :=
  [.codecState 4, .connectCallback .undefined, .submit ["D100"], .submit ["D101"],
   .readTimeout 0 false, .submit ["D102"], .dispatch]

/-- The codec connects; two requests are submitted; the first read succeeds; a
third request is submitted; the deferred dispatch runs; the codec completes
its two reads in the order in which it received them. -/
def overlapAfterSuccess : List Event :=
  [.codecState 4, .connectCallback .undefined, .submit ["D100"], .submit ["D101"],
   .codecComplete 0 (.bool false) (.obj [("D100", .num 5)]) false, .submit ["D102"], .dispatch,
   .codecComplete 1 (.bool false) (.obj [("D102", .num 7)]) false,
   .codecComplete 2 (.bool false) (.obj [("D101", .num 6)]) false]

/-- Three requests, each read completing before the next event. -/
def threeReads : List Event :=
  [.codecState 4, .connectCallback .undefined, .submit ["D100", "D101"], .submit ["D102"],
   .submit ["D103"],
   .codecComplete 0 (.bool false) (.obj [("D100", .num 5), ("D101", .num 7)]) false,
   .dispatch, .codecComplete 1 (.bool false) (.obj [("D102", .num 1)]) false,
   .dispatch, .codecComplete 2 (.bool false) (.obj [("D103", .num 2)]) false]

/-- The node after `threeReads`. -/
def threeReadsDone : Node :=
  (run (mcConnectionNode plainConfig 0) threeReads).getD (mcConnectionNode plainConfig 0)

/-- Two requests; the read timeout of the first fires. -/
def timedOutRun : List Event :=
  [.codecState 4, .connectCallback .undefined, .submit ["D100"], .submit ["D101"],
   .readTimeout 0 false]

/-- The node after `timedOutRun`. -/
def timedOutNode : Node :=
  (run (mcConnectionNode plainConfig 0) timedOutRun).getD (mcConnectionNode plainConfig 0)

/-- The activation of the first request of `timedOutRun` after its timeout. -/
def timedOutOp : Op :=
  { request := { id := 0, addressArray := ["D100"] }, timeoutMs := .num 4500,
    timeoutHit := true, timerArmed := false, callbackPending := true }

/-- Three requests, the first read succeeds, then the codec leaves state 4. -/
def backlogWindow : List Event :=
  [.codecState 4, .connectCallback .undefined, .submit ["D100"], .submit ["D101"],
   .submit ["D102"], .codecComplete 0 (.bool false) (.obj [("D100", .num 5)]) false,
   .codecState 0]

/-- Two requests submitted against a connected codec. -/
def twoSubmitted : List Event :=
  [.codecState 4, .connectCallback .undefined, .submit ["D100"], .submit ["D101"]]

/-- The node after `twoSubmitted`. -/
def twoSubmittedNode : Node :=
  (run (mcConnectionNode plainConfig 0) twoSubmitted).getD (mcConnectionNode plainConfig 0)

/-- The node configured with a timeout of 3000 after one submit. -/
def timeout3000Node : Node :=
  (run (mcConnectionNode { timeout := .num 3000 } 4) [.submit ["D100"]]).getD
    (mcConnectionNode { timeout := .num 3000 } 4)

/-- The activation of that submit. -/
def timeout3000Op : Op :=
  { request := { id := 0, addressArray := ["D100"] }, timeoutMs := .num 3000,
    timeoutHit := false, timerArmed := true, callbackPending := true }

/-- The activation of the first request of `twoSubmitted`, in flight. -/
def firstOp : Op :=
  { request := { id := 0, addressArray := ["D100"] }, timeoutMs := .num 4500,
    timeoutHit := false, timerArmed := true, callbackPending := true }

/-- Two requests against a connected codec; the read of the first succeeds. -/
def releaseWindow : List Event :=
  [.codecState 4, .connectCallback .undefined, .submit ["D100"], .submit ["D101"],
   .codecComplete 0 (.bool false) (.obj [("D100", .num 5)]) false]

/-- An error object whose own property `toString` is not a function. -/
def shadowedToString : JsVal :=
  .obj [("code", .num 3), ("toString", .str "bad address")]

/-- Two requests against a connected codec; the codec completes the read of
the first with `shadowedToString`. -/
def throwingCompletion : List Event :=
  [.codecState 4, .connectCallback .undefined, .submit ["D100"], .submit ["D101"],
   .codecComplete 0 shadowedToString .undefined false]

/-- A reads node in `'json'` format that has seen the connection come up. -/
def jsonReads (address : List String) : ReadsNode :=
  changeNodeStatus (mcReads .json .throwing address) .connected

/-- A reads node in array format that has seen the connection come up. -/
def arrayReads (address : List String) : ReadsNode :=
  changeNodeStatus (mcReads .array .throwing address) .connected

/-! ## Lemmas -/

@[simp] theorem record_trace (n : Node) (a : Action) : (record n a).trace = n.trace ++ [a] := rfl

@[simp] theorem record_conStatus (n : Node) (a : Action) :
    (record n a).conStatus = n.conStatus := rfl

@[simp] theorem record_isBusy (n : Node) (a : Action) : (record n a).isBusy = n.isBusy := rfl

@[simp] theorem record_readQueue (n : Node) (a : Action) :
    (record n a).readQueue = n.readQueue := rfl

@[simp] theorem record_immediates (n : Node) (a : Action) :
    (record n a).immediates = n.immediates := rfl

@[simp] theorem record_ops (n : Node) (a : Action) : (record n a).ops = n.ops := rfl

@[simp] theorem record_submitted (n : Node) (a : Action) :
    (record n a).submitted = n.submitted := rfl

@[simp] theorem record_iso (n : Node) (a : Action) :
    (record n a).isoConnectionState = n.isoConnectionState := rfl

@[simp] theorem record_globalTimeout (n : Node) (a : Action) :
    (record n a).globalTimeout = n.globalTimeout := rfl

@[simp] theorem record_reconnectTimers (n : Node) (a : Action) :
    (record n a).reconnectTimers = n.reconnectTimers := rfl

@[simp] theorem occ_isBusy (n : Node) (c : ConStatus) :
    (onConnectionChange n c).isBusy = n.isBusy := by
  unfold onConnectionChange; split <;> rfl

@[simp] theorem occ_readQueue (n : Node) (c : ConStatus) :
    (onConnectionChange n c).readQueue = n.readQueue := by
  unfold onConnectionChange; split <;> rfl

@[simp] theorem occ_immediates (n : Node) (c : ConStatus) :
    (onConnectionChange n c).immediates = n.immediates := by
  unfold onConnectionChange; split <;> rfl

@[simp] theorem occ_ops (n : Node) (c : ConStatus) : (onConnectionChange n c).ops = n.ops := by
  unfold onConnectionChange; split <;> rfl

@[simp] theorem occ_submitted (n : Node) (c : ConStatus) :
    (onConnectionChange n c).submitted = n.submitted := by
  unfold onConnectionChange; split <;> rfl

@[simp] theorem occ_iso (n : Node) (c : ConStatus) :
    (onConnectionChange n c).isoConnectionState = n.isoConnectionState := by
  unfold onConnectionChange; split <;> rfl

@[simp] theorem occ_globalTimeout (n : Node) (c : ConStatus) :
    (onConnectionChange n c).globalTimeout = n.globalTimeout := by
  unfold onConnectionChange; split <;> rfl

@[simp] theorem occ_reconnectTimers (n : Node) (c : ConStatus) :
    (onConnectionChange n c).reconnectTimers = n.reconnectTimers := by
  unfold onConnectionChange; split <;> rfl

@[simp] theorem occ_conStatus (n : Node) (c : ConStatus) :
    (onConnectionChange n c).conStatus = c := by
  unfold onConnectionChange; split
  · rfl
  · rename_i h; simpa using h

theorem occ_trace (n : Node) (c : ConStatus) :
    (onConnectionChange n c).trace =
      n.trace ++ (if n.conStatus = c then [] else [Action.emit c]) := by
  unfold onConnectionChange; split_ifs <;> simp_all [record]

@[simp] theorem cq_isBusy (n : Node) : (continueQueue n).isBusy = n.isBusy := by
  unfold continueQueue; split <;> rfl

@[simp] theorem cq_ops (n : Node) : (continueQueue n).ops = n.ops := by
  unfold continueQueue; split <;> rfl

@[simp] theorem cq_submitted (n : Node) : (continueQueue n).submitted = n.submitted := by
  unfold continueQueue; split <;> rfl

@[simp] theorem cq_trace (n : Node) : (continueQueue n).trace = n.trace := by
  unfold continueQueue; split <;> rfl

@[simp] theorem cq_conStatus (n : Node) : (continueQueue n).conStatus = n.conStatus := by
  unfold continueQueue; split <;> rfl

theorem cq_count (n : Node) (p : Request → Bool) :
    (continueQueue n).readQueue.countP p + (continueQueue n).immediates.countP p =
      n.readQueue.countP p + n.immediates.countP p := by
  unfold continueQueue
  split
  · rfl
  · rename_i next rest h
    simp only [h, List.countP_append, List.countP_cons, List.countP_nil]
    omega

theorem cq_queue (n : Node) :
    (continueQueue n).readQueue ≠ [] → (continueQueue n).immediates ≠ [] := by
  unfold continueQueue
  split
  · rename_i h; simp [h]
  · simp

theorem countP_set_getElem? {α : Type} (p : α → Bool) (l : List α) (i : Nat) (a b : α)
    (h : l[i]? = some a) :
    (l.set i b).countP p + (if p a then 1 else 0) = l.countP p + (if p b then 1 else 0) := by
  obtain ⟨hlt, rfl⟩ := List.getElem?_eq_some_iff.mp h
  have h1 := List.countP_set p l i b hlt
  have h2 : (if p l[i] = true then 1 else 0) ≤ l.countP p :=
    List.boole_getElem_le_countP p l i hlt
  omega

theorem Frame.refl (n : Node) : Frame n n :=
  ⟨rfl, rfl, rfl, rfl, rfl, rfl, [], by simp, by simp⟩

theorem Frame.trans {a b c : Node} (h₁ : Frame a b) (h₂ : Frame b c) : Frame a c := by
  obtain ⟨e₁, he₁, hd₁⟩ := h₁.trace
  obtain ⟨e₂, he₂, hd₂⟩ := h₂.trace
  refine ⟨h₂.isBusy.trans h₁.isBusy, h₂.readQueue.trans h₁.readQueue,
    h₂.immediates.trans h₁.immediates, h₂.ops.trans h₁.ops, h₂.submitted.trans h₁.submitted,
    h₂.globalTimeout.trans h₁.globalTimeout, e₁ ++ e₂, by simp [he₂, he₁], ?_⟩
  intro a ha id
  rcases List.mem_append.mp ha with h | h
  · exact hd₁ a h id
  · exact hd₂ a h id

theorem frame_record (n : Node) (a : Action) (h : ∀ id, a.deliversTo id = false) :
    Frame n (record n a) :=
  ⟨rfl, rfl, rfl, rfl, rfl, rfl, [a], rfl, by simpa using h⟩

theorem frame_occ (n : Node) (c : ConStatus) : Frame n (onConnectionChange n c) := by
  refine ⟨by simp, by simp, by simp, by simp, by simp, by simp, _, occ_trace n c, ?_⟩
  intro a ha id
  split_ifs at ha
  · simp at ha
  · simp at ha; subst ha; rfl

theorem Frame.waiting {n m : Node} (h : Frame n m) (id : Nat) : waiting m id = waiting n id := by
  simp [MCConnection.waiting, h.readQueue, h.immediates, h.ops]

theorem Frame.delivered {n m : Node} (h : Frame n m) (id : Nat) :
    delivered m id = delivered n id := by
  obtain ⟨e, he, hd⟩ := h.trace
  simp only [MCConnection.delivered, he, List.countP_append, Nat.add_right_eq_self]
  rw [List.countP_eq_zero]
  intro a ha
  simp [hd a ha id]

theorem Frame.inv {n m : Node} (h : Frame n m) (hn : Inv n) : Inv m := by
  obtain ⟨e, he, _⟩ := h.trace
  refine ⟨?_, ?_, ?_, ?_, ?_⟩
  · intro op hop; exact hn.timer op (h.ops ▸ hop)
  · intro hb
    obtain ⟨op, hop, hf⟩ := hn.busy (h.isBusy ▸ hb)
    exact ⟨op, h.ops ▸ hop, hf⟩
  · intro hq
    rcases hn.queue (h.readQueue ▸ hq) with hi | ⟨op, hop, hf⟩
    · exact Or.inl (h.immediates ▸ hi)
    · exact Or.inr ⟨op, h.ops ▸ hop, hf⟩
  · intro id
    rw [h.waiting, h.delivered, h.submitted]
    exact hn.once id
  · intro op hop ht
    rw [he]
    exact List.mem_append_left _ (hn.timedOut op (h.ops ▸ hop) ht)

theorem doRead_failFast (n : Node) (r : Request) (h : n.isoConnectionState ≠ 4) :
    doRead n r = continueQueue (failedFast n r) := by
  simp [doRead, h, failedFast]

theorem doRead_start (n : Node) (r : Request) (h : n.isoConnectionState = 4) :
    doRead n r =
      { n with
        isBusy := true
        ops := n.ops ++ [{ request := r, timeoutMs := timeoutMs n.globalTimeout,
                           timeoutHit := false, timerArmed := true, callbackPending := true }]
        trace := n.trace ++ [.addItems r.addressArray, .readAllItems n.ops.length] } := by
  simp [doRead, h, record]

theorem failedFast_frame (n : Node) (r : Request) :
    (failedFast n r).isBusy = false ∧ (failedFast n r).readQueue = n.readQueue ∧
      (failedFast n r).immediates = n.immediates ∧ (failedFast n r).ops = n.ops ∧
      (failedFast n r).submitted = n.submitted ∧
      (failedFast n r).trace =
        n.trace ++ (if n.conStatus = .disconnected then [] else [Action.emit .disconnected]) ++
          [.valuesReady r.id (.str "Connection not available") .null] := by
  simp [failedFast, occ_trace]

theorem doRead_submitted (n : Node) (r : Request) : (doRead n r).submitted = n.submitted := by
  by_cases h : n.isoConnectionState = 4
  · rw [doRead_start n r h]
  · rw [doRead_failFast n r h]; simp [failedFast]

theorem doRead_timer (n : Node) (r : Request) (h : TimerOK n) : TimerOK (doRead n r) := by
  by_cases h4 : n.isoConnectionState = 4
  · rw [doRead_start n r h4]
    intro op hop
    simp at hop
    rcases hop with hop | rfl
    · exact h op hop
    · intro _; rfl
  · rw [doRead_failFast n r h4]
    intro op hop
    simp [failedFast] at hop
    exact h op hop

theorem doRead_busy (n : Node) (r : Request) : BusyOK (doRead n r) := by
  by_cases h4 : n.isoConnectionState = 4
  · rw [doRead_start n r h4]
    intro _
    exact ⟨_, List.mem_append_right _ (List.mem_singleton_self _), rfl⟩
  · rw [doRead_failFast n r h4]
    intro hb
    simp [failedFast] at hb

theorem doRead_queue (n : Node) (r : Request) : QueueOK (doRead n r) := by
  by_cases h4 : n.isoConnectionState = 4
  · rw [doRead_start n r h4]
    intro _
    exact Or.inr ⟨_, List.mem_append_right _ (List.mem_singleton_self _), rfl⟩
  · rw [doRead_failFast n r h4]
    intro hq
    exact Or.inl (cq_queue _ hq)

theorem waiting_continueQueue (n : Node) (id : Nat) :
    waiting (continueQueue n) id = waiting n id := by
  simp only [waiting, cq_ops, cq_count]

theorem delivered_continueQueue (n : Node) (id : Nat) :
    delivered (continueQueue n) id = delivered n id := by
  simp only [delivered, cq_trace]

theorem doRead_once (n : Node) (r : Request) (id : Nat) :
    waiting (doRead n r) id + delivered (doRead n r) id =
      waiting n id + delivered n id + (if r.id = id then 1 else 0) := by
  by_cases h4 : n.isoConnectionState = 4
  · rw [doRead_start n r h4]
    simp [waiting, delivered, Op.inFlight, Action.deliversTo, List.countP_append,
      List.countP_cons]
    omega
  · rw [doRead_failFast n r h4, waiting_continueQueue, delivered_continueQueue]
    obtain ⟨_, hq, hi, ho, _, ht⟩ := failedFast_frame n r
    simp only [waiting, delivered, hq, hi, ho, ht, List.countP_append, List.countP_cons,
      List.countP_nil, Action.deliversTo]
    split_ifs <;> simp_all [Action.deliversTo] <;> omega

theorem doRead_timedOut (n : Node) (r : Request) (h : TimedOutOK n) : TimedOutOK (doRead n r) := by
  by_cases h4 : n.isoConnectionState = 4
  · rw [doRead_start n r h4]
    intro op hop ht
    simp at hop
    rcases hop with hop | rfl
    · simp; exact Or.inl (h op hop ht)
    · simp at ht
  · rw [doRead_failFast n r h4]
    obtain ⟨_, hq, hi, ho, _, htr⟩ := failedFast_frame n r
    intro op hop ht
    simp only [cq_ops, ho] at hop
    simp only [cq_trace, htr]
    simp; exact Or.inl (h op hop ht)

theorem inv_doRead (n : Node) (r : Request) (ht : TimerOK n) (hto : TimedOutOK n)
    (ho : ∀ id, waiting n id + delivered n id + (if r.id = id then 1 else 0) =
      if id < n.submitted then 1 else 0) : Inv (doRead n r) := by
  refine ⟨doRead_timer n r ht, doRead_busy n r, doRead_queue n r, ?_, doRead_timedOut n r hto⟩
  intro id
  rw [doRead_once, doRead_submitted]
  exact ho id

theorem inv_submit (n : Node) (a : List String) (h : Inv n) :
    Inv (readDataByAddressArray n a) := by
  unfold readDataByAddressArray
  by_cases hb : n.isBusy = true
  · simp only [hb, if_true]
    refine ⟨h.timer, fun _ => h.busy hb, fun _ => Or.inr (h.busy hb), ?_, h.timedOut⟩
    intro id
    have := h.once id
    simp only [waiting, delivered, List.countP_append, List.countP_cons, List.countP_nil,
      beq_iff_eq] at this ⊢
    split_ifs at this ⊢ <;> omega
  · simp only [hb]
    apply inv_doRead
    · exact h.timer
    · exact h.timedOut
    · intro id
      have := h.once id
      simp only [waiting, delivered] at this ⊢
      split_ifs at this ⊢ <;> omega

theorem inv_dispatch (n : Node) (next : Request) (rest : List Request) (h : Inv n)
    (hi : n.immediates = next :: rest) : Inv (doRead { n with immediates := rest } next) := by
  apply inv_doRead
  · exact h.timer
  · exact h.timedOut
  · intro id
    have := h.once id
    simp only [waiting, delivered, hi, List.countP_cons] at this ⊢
    simp only [beq_iff_eq] at this
    omega

theorem countP_nondelivering (l : List Action) (id : Nat)
    (h : ∀ a ∈ l, ∀ id, a.deliversTo id = false) : l.countP (Action.deliversTo id) = 0 := by
  rw [List.countP_eq_zero]
  intro a ha
  simp [h a ha id]

theorem inv_complete (n m : Node) (i : Nat) (op op' : Op) (e v : JsVal) (pre post : List Action)
    (h : Inv n) (hi : n.ops[i]? = some op) (hf : op.inFlight = true)
    (hr : op'.request = op.request) (hf' : op'.inFlight = false) (ht' : op'.timerArmed = false)
    (hto : op'.timeoutHit = true →
      Action.valuesReady op.request.id e v = timedOutResult op.request.id)
    (hb : m.isBusy = false) (hq : m.readQueue = n.readQueue) (him : m.immediates = n.immediates)
    (hops : m.ops = n.ops.set i op') (hs : m.submitted = n.submitted)
    (htr : m.trace = n.trace ++ pre ++ [.valuesReady op.request.id e v] ++ post)
    (hpre : ∀ a ∈ pre ++ post, ∀ id, a.deliversTo id = false) : Inv (continueQueue m) := by
  refine ⟨?_, ?_, ?_, ?_, ?_⟩
  · intro x hx
    rw [cq_ops, hops] at hx
    rcases List.mem_or_eq_of_mem_set hx with hx | rfl
    · exact h.timer x hx
    · intro hx; rw [ht'] at hx; cases hx
  · intro hx; rw [cq_isBusy, hb] at hx; cases hx
  · intro hx; exact Or.inl (cq_queue m hx)
  · intro id
    rw [waiting_continueQueue, delivered_continueQueue, cq_submitted, hs]
    have h1 := h.once id
    have h2 : (n.ops.set i op').countP (fun op => op.inFlight && op.request.id == id) +
        (if op.request.id = id then 1 else 0) =
          n.ops.countP (fun op => op.inFlight && op.request.id == id) := by
      have := countP_set_getElem? (fun op => op.inFlight && op.request.id == id) n.ops i op op' hi
      simpa [hf, hf'] using this
    have h3 := countP_nondelivering pre id (fun a ha => hpre a (List.mem_append_left _ ha))
    have h4 := countP_nondelivering post id (fun a ha => hpre a (List.mem_append_right _ ha))
    simp only [waiting, delivered, hq, him, hops, htr, List.countP_append, List.countP_cons,
      List.countP_nil, h3, h4, Action.deliversTo, beq_iff_eq] at h1 ⊢
    split_ifs at h1 h2 ⊢ <;> omega
  · intro x hx hxt
    rw [cq_ops, hops] at hx
    rw [cq_trace, htr]
    rcases List.mem_or_eq_of_mem_set hx with hx | rfl
    · have := h.timedOut x hx hxt
      simp only [List.mem_append]
      exact Or.inl (Or.inl (Or.inl this))
    · rw [hr, ← hto hxt]
      simp

theorem countP_set_same {α : Type} (p : α → Bool) (l : List α) (i : Nat) (a b : α)
    (h : l[i]? = some a) (hab : p a = p b) : (l.set i b).countP p = l.countP p := by
  have := countP_set_getElem? p l i a b h
  rw [hab] at this
  omega

theorem exists_inFlight_set (l : List Op) (i : Nat) (op op' : Op) (hi : l[i]? = some op)
    (hf : op.inFlight = false) (h : ∃ x ∈ l, x.inFlight = true) :
    ∃ x ∈ l.set i op', x.inFlight = true := by
  obtain ⟨x, hx, hxf⟩ := h
  obtain ⟨k, hk, hkx⟩ := List.getElem_of_mem hx
  by_cases hki : k = i
  · subst hki
    rw [List.getElem?_eq_getElem hk] at hi
    simp only [Option.some.injEq] at hi
    rw [hkx] at hi; subst hi
    rw [hf] at hxf; cases hxf
  · refine ⟨x, ?_, hxf⟩
    have : (l.set i op')[k]? = some x := by
      rw [List.getElem?_set_ne (Ne.symm hki), List.getElem?_eq_getElem hk, hkx]
    exact List.getElem?_mem this

theorem inv_late (n : Node) (i : Nat) (op : Op) (h : Inv n) (hi : n.ops[i]? = some op)
    (ht : op.timeoutHit = true) :
    Inv { n with ops := n.ops.set i { op with callbackPending := false } } := by
  have hop : op ∈ n.ops := List.getElem?_mem hi
  have hf : op.inFlight = false := by simp [Op.inFlight, ht]
  refine ⟨?_, ?_, ?_, ?_, ?_⟩
  · intro x hx
    rcases List.mem_or_eq_of_mem_set hx with hx | rfl
    · exact h.timer x hx
    · intro hx
      have := h.timer op hop hx
      rw [hf] at this; cases this
  · intro hx
    exact exists_inFlight_set n.ops i op _ hi hf (h.busy hx)
  · intro hx
    rcases h.queue hx with h1 | h1
    · exact Or.inl h1
    · exact Or.inr (exists_inFlight_set n.ops i op _ hi hf h1)
  · intro id
    have h1 := h.once id
    have h2 := countP_set_same (fun op => op.inFlight && op.request.id == id) n.ops i op
      { op with callbackPending := false } hi (by simp [Op.inFlight, ht])
    simp only [waiting, delivered] at h1 ⊢
    rw [h2]
    exact h1
  · intro x hx hxt
    rcases List.mem_or_eq_of_mem_set hx with hx | rfl
    · exact h.timedOut x hx hxt
    · exact h.timedOut op hop ht

theorem timeoutCallback_eq (n : Node) (i : Nat) (op : Op) (removeThrows : Bool) :
    timeoutCallback n i op removeThrows =
      continueQueue (onConnectionChange
        (record
          (if removeThrows then
            record (record
              { n with
                ops := n.ops.set i { op with timeoutHit := true, timerArmed := false }
                isBusy := false } (.removeItems op.request.addressArray)) .consoleWarn
          else
            record
              { n with
                ops := n.ops.set i { op with timeoutHit := true, timerArmed := false }
                isBusy := false } (.removeItems op.request.addressArray))
          (.valuesReady op.request.id (.str "Read operation timed out") .null))
        .disconnected) := rfl

theorem inv_timeoutCallback (n : Node) (i : Nat) (op : Op) (removeThrows : Bool) (h : Inv n)
    (hi : n.ops[i]? = some op) (ha : op.timerArmed = true) :
    Inv (timeoutCallback n i op removeThrows) := by
  have hf := h.timer op (List.getElem?_mem hi) ha
  rw [timeoutCallback_eq]
  refine inv_complete n _ i op { op with timeoutHit := true, timerArmed := false }
    (.str "Read operation timed out") .null
    ([.removeItems op.request.addressArray] ++ if removeThrows then [.consoleWarn] else [])
    (if n.conStatus = .disconnected then [] else [.emit .disconnected])
    h hi hf rfl (by simp [Op.inFlight]) rfl (fun _ => rfl) ?_ ?_ ?_ ?_ ?_ ?_ ?_
  · cases removeThrows <;> simp
  · cases removeThrows <;> simp
  · cases removeThrows <;> simp
  · cases removeThrows <;> simp
  · cases removeThrows <;> simp
  · cases removeThrows <;> simp [occ_trace]
  · intro a ha id
    cases removeThrows <;> split_ifs at ha <;> simp at ha <;>
      rcases ha with rfl | rfl | rfl <;> rfl

theorem wrappedCallback_late (n : Node) (i : Nat) (op : Op) (e v : JsVal) (removeThrows : Bool)
    (ht : op.timeoutHit = true) :
    wrappedCallback n i op e v removeThrows =
      { n with ops := n.ops.set i { op with callbackPending := false } } := by
  simp [wrappedCallback, ht]

theorem wrappedCallback_eq (n : Node) (i : Nat) (op : Op) (e v : JsVal) (removeThrows : Bool)
    (ht : op.timeoutHit = false) (hx : toStringThrows e = false) :
    wrappedCallback n i op e v removeThrows =
      continueQueue (record
        (if removeThrows then
          record (record (classified n i op e) (.removeItems op.request.addressArray)) .consoleWarn
        else record (classified n i op e) (.removeItems op.request.addressArray))
        (.valuesReady op.request.id e v)) := by
  simp [wrappedCallback, ht, hx, classified]

theorem wrappedCallback_throws (n : Node) (i : Nat) (op : Op) (e v : JsVal)
    (removeThrows : Bool) (ht : op.timeoutHit = false) (hx : toStringThrows e = true) :
    wrappedCallback n i op e v removeThrows =
      { n with
        ops := n.ops.set i { op with callbackPending := false, timerArmed := false }
        isBusy := false } := by
  simp [wrappedCallback, ht, hx]

theorem classified_frame (n : Node) (i : Nat) (op : Op) (e : JsVal) :
    (classified n i op e).isBusy = false ∧ (classified n i op e).readQueue = n.readQueue ∧
      (classified n i op e).immediates = n.immediates ∧
      (classified n i op e).ops =
        n.ops.set i { op with callbackPending := false, timerArmed := false } ∧
      (classified n i op e).submitted = n.submitted ∧
      (classified n i op e).trace =
        n.trace ++ (if (truthy e && isConnectionError e) = true ∧ n.conStatus ≠ .disconnected
          then [.emit .disconnected] else []) := by
  unfold classified
  split_ifs <;> simp_all [occ_trace]

theorem inv_wrappedCallback (n : Node) (i : Nat) (op : Op) (e v : JsVal) (removeThrows : Bool)
    (h : Inv n) (hi : n.ops[i]? = some op) (hp : op.callbackPending = true)
    (hx : toStringThrows e = false) : Inv (wrappedCallback n i op e v removeThrows) := by
  by_cases ht : op.timeoutHit = true
  · rw [wrappedCallback_late n i op e v removeThrows ht]
    exact inv_late n i op h hi ht
  · have ht' : op.timeoutHit = false := by simpa using ht
    have hf : op.inFlight = true := by simp [Op.inFlight, hp, ht']
    rw [wrappedCallback_eq n i op e v removeThrows ht' hx]
    obtain ⟨c1, c2, c3, c4, c5, c6⟩ := classified_frame n i op e
    refine inv_complete n _ i op { op with callbackPending := false, timerArmed := false } e v
      ((if (truthy e && isConnectionError e) = true ∧ n.conStatus ≠ .disconnected
          then [.emit .disconnected] else []) ++
        [.removeItems op.request.addressArray] ++ if removeThrows then [.consoleWarn] else [])
      [] h hi hf rfl rfl rfl (fun hx => absurd hx (by simpa using ht')) ?_ ?_ ?_ ?_ ?_ ?_ ?_
    · cases removeThrows <;> simp [c1]
    · cases removeThrows <;> simp [c2]
    · cases removeThrows <;> simp [c3]
    · cases removeThrows <;> simp [c4]
    · cases removeThrows <;> simp [c5]
    · cases removeThrows <;> simp [c6]
    · intro a ha id
      cases removeThrows <;> split_ifs at ha <;> simp at ha <;>
        rcases ha with rfl | rfl | rfl <;> rfl

theorem Frame.record {n m : Node} (h : Frame n m) (a : Action)
    (ha : ∀ id, a.deliversTo id = false) : Frame n (record m a) :=
  h.trans (frame_record m a ha)

theorem Frame.occ {n m : Node} (h : Frame n m) (c : ConStatus) :
    Frame n (onConnectionChange m c) :=
  h.trans (frame_occ m c)

theorem frame_iso (n : Node) (k : Nat) : Frame n { n with isoConnectionState := k } :=
  ⟨rfl, rfl, rfl, rfl, rfl, rfl, [], by simp, by simp⟩

theorem frame_timers (n : Node) (k : Nat) : Frame n { n with reconnectTimers := k } :=
  ⟨rfl, rfl, rfl, rfl, rfl, rfl, [], by simp, by simp⟩

theorem frame_enhancedErrorHandling (n : Node) (msg : String) :
    Frame n (enhancedMCProtocolErrorHandling n msg) := by
  unfold enhancedMCProtocolErrorHandling
  refine Frame.trans ?_ (frame_timers _ _)
  refine Frame.record (Frame.occ (Frame.record (Frame.refl n) _ ?_) _) _ ?_ <;> intro _ <;> rfl

theorem frame_reconnect (n : Node) (outcome : LinkOutcome) : Frame n (reconnect n outcome) := by
  unfold reconnect
  split_ifs
  · have h1 : Frame n (record (onConnectionChange n .connecting) .dropConnection) :=
      Frame.record (Frame.occ (Frame.refl n) _) _ (fun _ => rfl)
    cases outcome with
    | ok => exact Frame.record h1 .initiateConnection (fun _ => rfl)
    | dropThrows msg =>
      exact Frame.occ (Frame.record h1 (.nodeError _) (fun _ => rfl)) _
    | initiateThrows msg =>
      exact Frame.occ (Frame.record (Frame.record h1 .initiateConnection (fun _ => rfl))
        (.nodeError _) (fun _ => rfl)) _
  · exact Frame.refl n

theorem frame_connectToPLC (n : Node) : Frame n (connectToPLC n) := by
  unfold connectToPLC
  split_ifs
  · exact Frame.record (Frame.occ (Frame.record (Frame.refl n) .dropConnection (fun _ => rfl)) _)
      .initiateConnection (fun _ => rfl)
  · exact Frame.refl n

theorem frame_connectCallback (n : Node) (result : JsVal) : Frame n (connectCallback n result) := by
  unfold connectCallback
  split_ifs <;> exact frame_occ _ _

theorem frame_onClose (n : Node) : Frame n (onClose n) := by
  unfold onClose
  exact Frame.record (Frame.occ (Frame.record (Frame.refl n) .dropConnection (fun _ => rfl)) _)
    .removeAllListeners (fun _ => rfl)

theorem inv_step (n m : Node) (e : Event) (h : Inv n) (he : e.returns = true)
    (hs : step n e = some m) : Inv m := by
  cases e with
  | submit a =>
    simp only [step, Option.some.injEq] at hs
    subst hs; exact inv_submit n a h
  | codecComplete i bad vals rt =>
    simp only [step] at hs
    split at hs
    · rename_i op hop
      split_ifs at hs with hp
      simp only [Option.some.injEq] at hs
      subst hs
      exact inv_wrappedCallback n i op bad vals rt h hop hp (by simpa [Event.returns] using he)
    · cases hs
  | readTimeout i rt =>
    simp only [step] at hs
    split at hs
    · rename_i op hop
      split_ifs at hs with hp
      simp only [Option.some.injEq] at hs
      subst hs; exact inv_timeoutCallback n i op rt h hop hp
    · cases hs
  | dispatch =>
    simp only [step] at hs
    split at hs
    · rename_i next rest hi
      simp only [Option.some.injEq] at hs
      subst hs; exact inv_dispatch n next rest h hi
    · cases hs
  | codecState k =>
    simp only [step, Option.some.injEq] at hs
    subst hs
    exact (frame_iso n k).inv h
  | connectError msg =>
    simp only [step, Option.some.injEq] at hs
    subst hs; exact (frame_enhancedErrorHandling n msg).inv h
  | reconnectTimer outcome =>
    simp only [step] at hs
    split_ifs at hs
    simp only [Option.some.injEq] at hs
    subst hs
    exact (frame_reconnect _ outcome).inv ((frame_timers n _).inv h)
  | connectCallback result =>
    simp only [step, Option.some.injEq] at hs
    subst hs; exact (frame_connectCallback n result).inv h
  | close =>
    simp only [step, Option.some.injEq] at hs
    subst hs; exact (frame_onClose n).inv h

theorem inv_run (es : List Event) (n m : Node) (h : Inv n) (he : ∀ e ∈ es, e.returns = true)
    (hr : run n es = some m) : Inv m := by
  induction es generalizing n with
  | nil =>
    simp only [run, Option.some.injEq] at hr
    subst hr; exact h
  | cons e es ih =>
    simp only [run] at hr
    cases hs : step n e with
    | none => simp [hs] at hr
    | some k =>
      rw [hs] at hr
      exact ih k (inv_step n k e h (he e (List.mem_cons_self _ _)) hs)
        (fun x hx => he x (List.mem_cons_of_mem _ hx)) hr

theorem inv_init (config : Config) (iso : Nat) : Inv (mcConnectionNode config iso) := by
  unfold mcConnectionNode
  refine (frame_connectToPLC _).inv ⟨?_, ?_, ?_, ?_, ?_⟩
  · intro op hop; simp at hop
  · intro hb; simp at hb
  · intro hq; simp at hq
  · intro id; simp [waiting, delivered]
  · intro op hop; simp at hop

theorem Inv.toCore {n : Node} (h : Inv n) : Core n :=
  ⟨h.timer, fun id => le_of_eq (h.once id), h.timedOut⟩

theorem Frame.preservesCore {n m : Node} (h : Frame n m) (hn : Core n) : Core m := by
  obtain ⟨e, he, _⟩ := h.trace
  refine ⟨?_, ?_, ?_⟩
  · intro op hop; exact hn.timer op (h.ops ▸ hop)
  · intro id
    rw [h.waiting, h.delivered, h.submitted]
    exact hn.once id
  · intro op hop ht
    rw [he]
    exact List.mem_append_left _ (hn.timedOut op (h.ops ▸ hop) ht)

theorem core_doRead (n : Node) (r : Request) (ht : TimerOK n) (hto : TimedOutOK n)
    (ho : ∀ id, waiting n id + delivered n id + (if r.id = id then 1 else 0) ≤
      if id < n.submitted then 1 else 0) : Core (doRead n r) := by
  refine ⟨doRead_timer n r ht, ?_, doRead_timedOut n r hto⟩
  intro id
  rw [doRead_once, doRead_submitted]
  exact ho id

theorem core_submit (n : Node) (a : List String) (h : Core n) :
    Core (readDataByAddressArray n a) := by
  unfold readDataByAddressArray
  by_cases hb : n.isBusy = true
  · simp only [hb, if_true]
    refine ⟨h.timer, ?_, h.timedOut⟩
    intro id
    have := h.once id
    simp only [waiting, delivered, List.countP_append, List.countP_cons, List.countP_nil,
      beq_iff_eq] at this ⊢
    split_ifs at this ⊢ <;> omega
  · simp only [hb]
    apply core_doRead
    · exact h.timer
    · exact h.timedOut
    · intro id
      have := h.once id
      simp only [waiting, delivered] at this ⊢
      split_ifs at this ⊢ <;> omega

theorem core_dispatch (n : Node) (next : Request) (rest : List Request) (h : Core n)
    (hi : n.immediates = next :: rest) : Core (doRead { n with immediates := rest } next) := by
  apply core_doRead
  · exact h.timer
  · exact h.timedOut
  · intro id
    have := h.once id
    simp only [waiting, delivered, hi, List.countP_cons] at this ⊢
    simp only [beq_iff_eq] at this
    omega

theorem core_complete (n m : Node) (i : Nat) (op op' : Op) (e v : JsVal)
    (pre post : List Action) (h : Core n) (hi : n.ops[i]? = some op) (hf : op.inFlight = true)
    (hr : op'.request = op.request) (hf' : op'.inFlight = false) (ht' : op'.timerArmed = false)
    (hto : op'.timeoutHit = true →
      Action.valuesReady op.request.id e v = timedOutResult op.request.id)
    (hq : m.readQueue = n.readQueue) (him : m.immediates = n.immediates)
    (hops : m.ops = n.ops.set i op') (hs : m.submitted = n.submitted)
    (htr : m.trace = n.trace ++ pre ++ [.valuesReady op.request.id e v] ++ post)
    (hpre : ∀ a ∈ pre ++ post, ∀ id, a.deliversTo id = false) : Core (continueQueue m) := by
  refine ⟨?_, ?_, ?_⟩
  · intro x hx
    rw [cq_ops, hops] at hx
    rcases List.mem_or_eq_of_mem_set hx with hx | rfl
    · exact h.timer x hx
    · intro hx; rw [ht'] at hx; cases hx
  · intro id
    rw [waiting_continueQueue, delivered_continueQueue, cq_submitted, hs]
    have h1 := h.once id
    have h2 : (n.ops.set i op').countP (fun op => op.inFlight && op.request.id == id) +
        (if op.request.id = id then 1 else 0) =
          n.ops.countP (fun op => op.inFlight && op.request.id == id) := by
      have := countP_set_getElem? (fun op => op.inFlight && op.request.id == id) n.ops i op op' hi
      simpa [hf, hf'] using this
    have h3 := countP_nondelivering pre id (fun a ha => hpre a (List.mem_append_left _ ha))
    have h4 := countP_nondelivering post id (fun a ha => hpre a (List.mem_append_right _ ha))
    simp only [waiting, delivered, hq, him, hops, htr, List.countP_append, List.countP_cons,
      List.countP_nil, h3, h4, Action.deliversTo, beq_iff_eq] at h1 ⊢
    split_ifs at h1 h2 ⊢ <;> omega
  · intro x hx hxt
    rw [cq_ops, hops] at hx
    rw [cq_trace, htr]
    rcases List.mem_or_eq_of_mem_set hx with hx | rfl
    · have := h.timedOut x hx hxt
      simp only [List.mem_append]
      exact Or.inl (Or.inl (Or.inl this))
    · rw [hr, ← hto hxt]
      simp

theorem core_unregister (n : Node) (i : Nat) (op op' : Op) (h : Core n)
    (hi : n.ops[i]? = some op) (hr : op'.request = op.request) (hf' : op'.inFlight = false)
    (ht' : op'.timerArmed = false) (hto : op'.timeoutHit = op.timeoutHit) (b : Bool) :
    Core { n with ops := n.ops.set i op', isBusy := b } := by
  have hop : op ∈ n.ops := List.getElem?_mem hi
  refine ⟨?_, ?_, ?_⟩
  · intro x hx
    rcases List.mem_or_eq_of_mem_set hx with hx | rfl
    · exact h.timer x hx
    · intro hx; rw [ht'] at hx; cases hx
  · intro id
    have h1 := h.once id
    have h2 := countP_set_getElem? (fun op => op.inFlight && op.request.id == id) n.ops i op op' hi
    simp only [hf', Bool.false_and, Bool.false_eq_true, if_false, add_zero] at h2
    simp only [waiting, delivered] at h1 ⊢
    split_ifs at h1 h2 ⊢ <;> omega
  · intro x hx hxt
    rcases List.mem_or_eq_of_mem_set hx with hx | rfl
    · exact h.timedOut x hx hxt
    · rw [hr]
      exact h.timedOut op hop (hto ▸ hxt)

theorem core_timeoutCallback (n : Node) (i : Nat) (op : Op) (removeThrows : Bool) (h : Core n)
    (hi : n.ops[i]? = some op) (ha : op.timerArmed = true) :
    Core (timeoutCallback n i op removeThrows) := by
  have hf := h.timer op (List.getElem?_mem hi) ha
  rw [timeoutCallback_eq]
  refine core_complete n _ i op { op with timeoutHit := true, timerArmed := false }
    (.str "Read operation timed out") .null
    ([.removeItems op.request.addressArray] ++ if removeThrows then [.consoleWarn] else [])
    (if n.conStatus = .disconnected then [] else [.emit .disconnected])
    h hi hf rfl (by simp [Op.inFlight]) rfl (fun _ => rfl) ?_ ?_ ?_ ?_ ?_ ?_
  · cases removeThrows <;> simp
  · cases removeThrows <;> simp
  · cases removeThrows <;> simp
  · cases removeThrows <;> simp
  · cases removeThrows <;> simp [occ_trace]
  · intro a ha id
    cases removeThrows <;> split_ifs at ha <;> simp at ha <;>
      rcases ha with rfl | rfl | rfl <;> rfl

theorem core_wrappedCallback (n : Node) (i : Nat) (op : Op) (e v : JsVal) (removeThrows : Bool)
    (h : Core n) (hi : n.ops[i]? = some op) (hp : op.callbackPending = true) :
    Core (wrappedCallback n i op e v removeThrows) := by
  by_cases ht : op.timeoutHit = true
  · rw [wrappedCallback_late n i op e v removeThrows ht]
    have hf : op.inFlight = false := by simp [Op.inFlight, ht]
    have hta : op.timerArmed = false := by
      cases hb : op.timerArmed with
      | false => rfl
      | true =>
        have := h.timer op (List.getElem?_mem hi) hb
        rw [hf] at this; cases this
    have := core_unregister n i op { op with callbackPending := false } h hi rfl
      (by simp [Op.inFlight]) hta rfl n.isBusy
    exact this
  · have ht' : op.timeoutHit = false := by simpa using ht
    have hf : op.inFlight = true := by simp [Op.inFlight, hp, ht']
    cases hx : toStringThrows e with
    | true =>
      rw [wrappedCallback_throws n i op e v removeThrows ht' hx]
      exact core_unregister n i op { op with callbackPending := false, timerArmed := false } h hi
        rfl (by simp [Op.inFlight]) rfl rfl false
    | false =>
      rw [wrappedCallback_eq n i op e v removeThrows ht' hx]
      obtain ⟨_, c2, c3, c4, c5, c6⟩ := classified_frame n i op e
      refine core_complete n _ i op { op with callbackPending := false, timerArmed := false } e v
        ((if (truthy e && isConnectionError e) = true ∧ n.conStatus ≠ .disconnected
            then [.emit .disconnected] else []) ++
          [.removeItems op.request.addressArray] ++ if removeThrows then [.consoleWarn] else [])
        [] h hi hf rfl rfl rfl (fun hx => absurd hx (by simpa using ht')) ?_ ?_ ?_ ?_ ?_ ?_
      · cases removeThrows <;> simp [c2]
      · cases removeThrows <;> simp [c3]
      · cases removeThrows <;> simp [c4]
      · cases removeThrows <;> simp [c5]
      · cases removeThrows <;> simp [c6]
      · intro a ha id
        cases removeThrows <;> split_ifs at ha <;> simp at ha <;>
          rcases ha with rfl | rfl | rfl <;> rfl

theorem core_step (n m : Node) (e : Event) (h : Core n) (hs : step n e = some m) : Core m := by
  cases e with
  | submit a =>
    simp only [step, Option.some.injEq] at hs
    subst hs; exact core_submit n a h
  | codecComplete i bad vals rt =>
    simp only [step] at hs
    split at hs
    · rename_i op hop
      split_ifs at hs with hp
      simp only [Option.some.injEq] at hs
      subst hs; exact core_wrappedCallback n i op bad vals rt h hop hp
    · cases hs
  | readTimeout i rt =>
    simp only [step] at hs
    split at hs
    · rename_i op hop
      split_ifs at hs with hp
      simp only [Option.some.injEq] at hs
      subst hs; exact core_timeoutCallback n i op rt h hop hp
    · cases hs
  | dispatch =>
    simp only [step] at hs
    split at hs
    · rename_i next rest hi
      simp only [Option.some.injEq] at hs
      subst hs; exact core_dispatch n next rest h hi
    · cases hs
  | codecState k =>
    simp only [step, Option.some.injEq] at hs
    subst hs
    exact (frame_iso n k).preservesCore h
  | connectError msg =>
    simp only [step, Option.some.injEq] at hs
    subst hs; exact (frame_enhancedErrorHandling n msg).preservesCore h
  | reconnectTimer outcome =>
    simp only [step] at hs
    split_ifs at hs
    simp only [Option.some.injEq] at hs
    subst hs
    exact (frame_reconnect _ outcome).preservesCore ((frame_timers n _).preservesCore h)
  | connectCallback result =>
    simp only [step, Option.some.injEq] at hs
    subst hs; exact (frame_connectCallback n result).preservesCore h
  | close =>
    simp only [step, Option.some.injEq] at hs
    subst hs; exact (frame_onClose n).preservesCore h

theorem core_run (es : List Event) (n m : Node) (h : Core n) (hr : run n es = some m) :
    Core m := by
  induction es generalizing n with
  | nil =>
    simp only [run, Option.some.injEq] at hr
    subst hr; exact h
  | cons e es ih =>
    simp only [run] at hr
    cases hs : step n e with
    | none => simp [hs] at hr
    | some k =>
      rw [hs] at hr
      exact ih k (core_step n k e h hs) hr

theorem submitted_step (n m : Node) (e : Event) (hs : step n e = some m) :
    m.submitted = n.submitted + submits [e] := by
  cases e with
  | submit a =>
    simp only [step, Option.some.injEq] at hs
    subst hs
    unfold readDataByAddressArray
    dsimp only
    split_ifs
    · rfl
    · simp [doRead_submitted, submits]
  | codecComplete i bad vals rt =>
    simp only [step] at hs
    split at hs
    · rename_i op hop
      split_ifs at hs with hp
      simp only [Option.some.injEq] at hs
      subst hs
      by_cases ht : op.timeoutHit = true
      · rw [wrappedCallback_late n i op bad vals rt ht]; rfl
      · cases hx : toStringThrows bad with
        | true => rw [wrappedCallback_throws n i op bad vals rt (by simpa using ht) hx]; rfl
        | false =>
          rw [wrappedCallback_eq n i op bad vals rt (by simpa using ht) hx]
          cases rt <;> simp [(classified_frame n i op bad).2.2.2.2.1, submits]
    · cases hs
  | readTimeout i rt =>
    simp only [step] at hs
    split at hs
    · rename_i op hop
      split_ifs at hs with hp
      simp only [Option.some.injEq] at hs
      subst hs
      rw [timeoutCallback_eq]
      cases rt <;> simp [submits]
    · cases hs
  | dispatch =>
    simp only [step] at hs
    split at hs
    · simp only [Option.some.injEq] at hs
      subst hs; simp [doRead_submitted, submits]
    · cases hs
  | codecState k =>
    simp only [step, Option.some.injEq] at hs
    subst hs; rfl
  | connectError msg =>
    simp only [step, Option.some.injEq] at hs
    subst hs; exact (frame_enhancedErrorHandling n msg).submitted
  | reconnectTimer outcome =>
    simp only [step] at hs
    split_ifs at hs
    simp only [Option.some.injEq] at hs
    subst hs
    exact (frame_reconnect _ outcome).submitted
  | connectCallback result =>
    simp only [step, Option.some.injEq] at hs
    subst hs; exact (frame_connectCallback n result).submitted
  | close =>
    simp only [step, Option.some.injEq] at hs
    subst hs; exact (frame_onClose n).submitted

theorem submitted_run (es : List Event) (n m : Node) (hr : run n es = some m) :
    m.submitted = n.submitted + submits es := by
  induction es generalizing n with
  | nil =>
    simp only [run, Option.some.injEq] at hr
    subst hr; rfl
  | cons e es ih =>
    simp only [run] at hr
    cases hs : step n e with
    | none => simp [hs] at hr
    | some k =>
      rw [hs] at hr
      rw [ih k hr, submitted_step n k e hs]
      cases e <;> simp only [submits] <;> omega

theorem count_invoked (trace : List Action) (id : Nat) :
    (invoked trace).count id = trace.countP (Action.deliversTo id) := by
  induction trace with
  | nil => rfl
  | cons a rest ih =>
    cases a <;> simp [invoked, Action.deliversTo, List.count_cons, List.countP_cons, ih]

theorem no_inFlight_of_quiescent (n : Node) (hq : quiescent n) :
    ¬ ∃ op ∈ n.ops, op.inFlight = true := by
  rintro ⟨op, hop, hf⟩
  have := (hq.2 op hop).1
  simp [Op.inFlight, this] at hf

theorem waiting_of_quiescent (n : Node) (h : Inv n) (hq : quiescent n) (id : Nat) :
    n.readQueue = [] ∧ waiting n id = 0 := by
  have hno := no_inFlight_of_quiescent n hq
  have hrq : n.readQueue = [] := by
    by_contra hne
    rcases h.queue hne with h1 | h1
    · exact h1 hq.1
    · exact hno h1
  refine ⟨hrq, ?_⟩
  simp only [waiting, hrq, hq.1, List.countP_nil, zero_add]
  rw [List.countP_eq_zero]
  intro op hop
  have := (hq.2 op hop).1
  simp [Op.inFlight, this]

theorem filter_eq_singleton {α : Type} (p : α → Bool) (l : List α) (a : α) (ha : a ∈ l)
    (hp : p a = true) (hc : l.countP p ≤ 1) : l.filter p = [a] := by
  have hmem : a ∈ l.filter p := List.mem_filter.mpr ⟨ha, hp⟩
  have hlen : (l.filter p).length ≤ 1 := by rwa [← List.countP_eq_length_filter]
  match hf : l.filter p, hmem, hlen with
  | [x], hmem, _ =>
    have : a = x := by simpa using hmem
    rw [this]
  | [], hmem, _ => simp at hmem
  | _ :: _ :: _, _, hlen => simp at hlen

theorem submit_busy (node : Node) (addressArray : List String) (hb : node.isBusy = true) :
    readDataByAddressArray node addressArray =
      { node with
        submitted := node.submitted + 1
        readQueue := node.readQueue ++
          [{ id := node.submitted, addressArray := addressArray }] } := by
  simp [readDataByAddressArray, hb]

theorem submit_idle (node : Node) (addressArray : List String) (hb : node.isBusy = false) :
    readDataByAddressArray node addressArray =
      doRead { node with submitted := node.submitted + 1 }
        { id := node.submitted, addressArray := addressArray } := by
  simp [readDataByAddressArray, hb]

theorem cq_readQueue (n : Node) : (continueQueue n).readQueue = n.readQueue.tail := by
  unfold continueQueue; split <;> simp_all

theorem cq_immediates (n : Node) :
    (continueQueue n).immediates = n.immediates ++ n.readQueue.take 1 := by
  unfold continueQueue; split <;> simp_all

theorem emitted_append (l₁ l₂ : List Action) : emitted (l₁ ++ l₂) = emitted l₁ ++ emitted l₂ := by
  induction l₁ with
  | nil => rfl
  | cons a rest ih => cases a <;> simp [emitted, ih]

theorem signalAll_trace (signals : List ConStatus) (node : Node) :
    (signalAll node signals).trace =
      node.trace ++ (changes node.conStatus signals).map Action.emit := by
  induction signals generalizing node with
  | nil => simp [signalAll, changes]
  | cons s rest ih =>
    have h := ih (onConnectionChange node s)
    simp only [signalAll, List.foldl_cons] at h ⊢
    rw [h, occ_trace, occ_conStatus]
    by_cases hs : node.conStatus = s
    · simp [changes, hs]
    · have hs' : ¬ s = node.conStatus := fun h => hs h.symm
      simp [changes, hs, hs']

theorem emitted_map_emit (l : List ConStatus) : emitted (l.map Action.emit) = l := by
  induction l with
  | nil => rfl
  | cons a rest ih => simp [emitted, ih]

theorem signalAll_emitted (signals : List ConStatus) (node : Node) :
    emitted ((signalAll node signals).trace.drop node.trace.length) =
      changes node.conStatus signals := by
  rw [signalAll_trace, List.drop_left, emitted_map_emit]

theorem chain_changes (signals : List ConStatus) (c : ConStatus) :
    List.Chain (fun a b => a ≠ b) c (changes c signals) := by
  induction signals generalizing c with
  | nil => exact List.Chain.nil
  | cons s rest ih =>
    by_cases hs : s = c
    · simp only [changes, hs, ne_eq, not_true_eq_false, if_false]
      exact ih c
    · simp only [changes, ne_eq, hs, not_false_eq_true, if_true]
      exact List.Chain.cons (fun h => hs h.symm) (ih s)

theorem changes_replicate_same (k : Nat) (c : ConStatus) : changes c (List.replicate k c) = [] := by
  induction k with
  | zero => rfl
  | succ k ih => simp [List.replicate_succ, changes, ih]

theorem run_append (a b : List Event) (n : Node) :
    run n (a ++ b) = (run n a).bind (fun m => run m b) := by
  induction a generalizing n with
  | nil => rfl
  | cons e rest ih =>
    simp only [List.cons_append, run]
    cases step n e with
    | none => rfl
    | some k => simp [ih]

theorem linkOpens_occ (n : Node) (c : ConStatus) :
    linkOpens (onConnectionChange n c).trace = linkOpens n.trace := by
  rw [occ_trace]
  split_ifs <;> simp [linkOpens]

theorem connectErrors_run (msgs : List String) (n : Node) :
    ∃ m, run n (msgs.map Event.connectError) = some m ∧
      (msgs ≠ [] → m.conStatus = .error) ∧
      m.reconnectTimers = n.reconnectTimers + msgs.length ∧
      linkOpens m.trace = linkOpens n.trace := by
  induction msgs generalizing n with
  | nil => exact ⟨n, rfl, fun h => absurd rfl h, rfl, rfl⟩
  | cons msg rest ih =>
    obtain ⟨m, hm, hc, ht, hl⟩ := ih (enhancedMCProtocolErrorHandling n msg)
    refine ⟨m, by simpa [run, step] using hm, ?_, ?_, ?_⟩
    · intro _
      cases rest with
      | nil =>
        simp only [List.map_nil, run, Option.some.injEq] at hm
        subst hm
        simp [enhancedMCProtocolErrorHandling]
      | cons x xs => exact hc (by simp)
    · rw [ht]; simp [enhancedMCProtocolErrorHandling]; omega
    · rw [hl]; simp [enhancedMCProtocolErrorHandling, linkOpens, linkOpens_occ]
      have := linkOpens_occ (record n (.nodeError ("PLC Connection error:" ++ msg))) .error
      simpa [linkOpens] using this

theorem idleTimers_run (k : Nat) (n : Node) (hc : n.conStatus = .connecting)
    (hk : k ≤ n.reconnectTimers) :
    run n (List.replicate k (.reconnectTimer .ok)) =
      some { n with reconnectTimers := n.reconnectTimers - k } := by
  induction k generalizing n with
  | zero => rfl
  | succ k ih =>
    have hpos : 0 < n.reconnectTimers := by omega
    simp only [List.replicate_succ, run, step, hpos, if_true]
    have hr : reconnect { n with reconnectTimers := n.reconnectTimers - 1 } .ok =
        { n with reconnectTimers := n.reconnectTimers - 1 } := by
      simp [reconnect, hc]
    rw [hr, Option.some_bind, ih { n with reconnectTimers := n.reconnectTimers - 1 } hc
      (by show k ≤ n.reconnectTimers - 1; omega)]
    simp
    omega

theorem guard_reconnect (n : Node) (outcome : LinkOutcome) (hc : n.conStatus = .connecting) :
    reconnect n outcome = n := by
  simp [reconnect, hc]

theorem cq_globalTimeout (n : Node) : (continueQueue n).globalTimeout = n.globalTimeout := by
  unfold continueQueue; split <;> rfl

theorem Frame.timeoutOK {n m : Node} {g : JsVal} (h : Frame n m) (hn : TimeoutOK g n) :
    TimeoutOK g m :=
  ⟨h.globalTimeout.trans hn.1, fun op hop => hn.2 op (h.ops ▸ hop)⟩

theorem timeoutOK_doRead (g : JsVal) (n : Node) (r : Request) (h : TimeoutOK g n) :
    TimeoutOK g (doRead n r) := by
  by_cases h4 : n.isoConnectionState = 4
  · rw [doRead_start n r h4]
    refine ⟨h.1, ?_⟩
    intro op hop
    simp only [List.mem_append, List.mem_singleton] at hop
    rcases hop with hop | rfl
    · exact h.2 op hop
    · simp [h.1]
  · rw [doRead_failFast n r h4]
    refine ⟨?_, ?_⟩
    · rw [cq_globalTimeout]; simp [failedFast, h.1]
    · intro op hop
      rw [cq_ops, (failedFast_frame n r).2.2.2.1] at hop
      exact h.2 op hop

theorem timeoutOK_set (g : JsVal) (l : List Op) (i : Nat) (op op' : Op)
    (h : ∀ x ∈ l, x.timeoutMs = timeoutMs g) (hi : l[i]? = some op)
    (ht : op'.timeoutMs = op.timeoutMs) : ∀ x ∈ l.set i op', x.timeoutMs = timeoutMs g := by
  intro x hx
  rcases List.mem_or_eq_of_mem_set hx with hx | rfl
  · exact h x hx
  · rw [ht]; exact h op (List.getElem?_mem hi)

theorem timeoutOK_step (g : JsVal) (n m : Node) (e : Event) (h : TimeoutOK g n)
    (hs : step n e = some m) : TimeoutOK g m := by
  cases e with
  | submit a =>
    simp only [step, Option.some.injEq] at hs
    subst hs
    by_cases hb : n.isBusy = true
    · rw [submit_busy n a hb]; exact h
    · rw [submit_idle n a (by simpa using hb)]
      exact timeoutOK_doRead g _ _ h
  | codecComplete i bad vals rt =>
    simp only [step] at hs
    split at hs
    · rename_i op hop
      split_ifs at hs with hp
      simp only [Option.some.injEq] at hs
      subst hs
      by_cases ht : op.timeoutHit = true
      · rw [wrappedCallback_late n i op bad vals rt ht]
        exact ⟨h.1, timeoutOK_set g n.ops i op { op with callbackPending := false } h.2 hop rfl⟩
      · by_cases hx : toStringThrows bad = true
        · rw [wrappedCallback_throws n i op bad vals rt (by simpa using ht) hx]
          exact ⟨h.1, timeoutOK_set g n.ops i op
            { op with callbackPending := false, timerArmed := false } h.2 hop rfl⟩
        rw [wrappedCallback_eq n i op bad vals rt (by simpa using ht) (by simpa using hx)]
        obtain ⟨-, -, -, c4, -, -⟩ := classified_frame n i op bad
        refine ⟨?_, ?_⟩
        · rw [cq_globalTimeout]
          cases rt <;> simp only [record_globalTimeout, if_true] <;>
            (unfold classified; split_ifs <;> simp [h.1])
        · intro x hx
          rw [cq_ops] at hx
          have : x ∈ n.ops.set i { op with callbackPending := false, timerArmed := false } := by
            rw [← c4]; cases rt <;> simpa using hx
          exact timeoutOK_set g n.ops i op
            { op with callbackPending := false, timerArmed := false } h.2 hop rfl x this
    · cases hs
  | readTimeout i rt =>
    simp only [step] at hs
    split at hs
    · rename_i op hop
      split_ifs at hs with hp
      simp only [Option.some.injEq] at hs
      subst hs
      rw [timeoutCallback_eq]
      refine ⟨?_, ?_⟩
      · rw [cq_globalTimeout]
        cases rt <;> simp [h.1]
      · intro x hx
        rw [cq_ops] at hx
        have : x ∈ n.ops.set i { op with timeoutHit := true, timerArmed := false } := by
          cases rt <;> simpa using hx
        exact timeoutOK_set g n.ops i op
          { op with timeoutHit := true, timerArmed := false } h.2 hop rfl x this
    · cases hs
  | dispatch =>
    simp only [step] at hs
    split at hs
    · simp only [Option.some.injEq] at hs
      subst hs
      exact timeoutOK_doRead g _ _ h
    · cases hs
  | codecState k =>
    simp only [step, Option.some.injEq] at hs
    subst hs; exact h
  | connectError msg =>
    simp only [step, Option.some.injEq] at hs
    subst hs; exact (frame_enhancedErrorHandling n msg).timeoutOK h
  | reconnectTimer outcome =>
    simp only [step] at hs
    split_ifs at hs
    simp only [Option.some.injEq] at hs
    subst hs
    exact (frame_reconnect _ outcome).timeoutOK h
  | connectCallback result =>
    simp only [step, Option.some.injEq] at hs
    subst hs; exact (frame_connectCallback n result).timeoutOK h
  | close =>
    simp only [step, Option.some.injEq] at hs
    subst hs; exact (frame_onClose n).timeoutOK h

theorem timeoutOK_run (g : JsVal) (es : List Event) (n m : Node) (h : TimeoutOK g n)
    (hr : run n es = some m) : TimeoutOK g m := by
  induction es generalizing n with
  | nil =>
    simp only [run, Option.some.injEq] at hr
    subst hr; exact h
  | cons e es ih =>
    simp only [run] at hr
    cases hs : step n e with
    | none => simp [hs] at hr
    | some k =>
      rw [hs] at hr
      exact ih k (timeoutOK_step g n k e h hs) hr

theorem timeoutOK_init (config : Config) (iso : Nat) :
    TimeoutOK (jsOr config.timeout (.num 4500)) (mcConnectionNode config iso) := by
  unfold mcConnectionNode
  refine (frame_connectToPLC _).timeoutOK ⟨rfl, ?_⟩
  intro op hop; simp at hop

theorem timeoutMs_config (t : JsVal) :
    timeoutMs (jsOr t (.num 4500)) =
      match t with
      | .num n => if n = 0 then .num 4500 else .num n
      | _ => .num 4500 := by
  cases t with
  | num n =>
    by_cases hn : n = 0
    · subst hn; rfl
    · simp [jsOr, truthy, hn, timeoutMs, typeof]
  | bool b => cases b <;> rfl
  | str s =>
    by_cases hs : s.data = []
    · simp [jsOr, truthy, hs, timeoutMs, typeof]
    · simp [jsOr, truthy, hs, timeoutMs, typeof]
  | _ => rfl

theorem emitOK_congr (n m : Node) (h : EmitOK n) (hc : m.conStatus = n.conStatus)
    (ht : m.trace = n.trace) : EmitOK m := by
  unfold EmitOK at h ⊢
  rw [hc, ht]; exact h

theorem emitOK_record (n : Node) (a : Action) (h : EmitOK n) (ha : emitted [a] = []) :
    EmitOK (record n a) := by
  unfold EmitOK at h ⊢
  rw [record_trace, emitted_append, ha, List.append_nil]
  exact h

theorem emitOK_occ (n : Node) (c : ConStatus) (h : EmitOK n) :
    EmitOK (onConnectionChange n c) := by
  unfold EmitOK at h ⊢
  rw [occ_trace, occ_conStatus, emitted_append]
  by_cases hc : n.conStatus = c
  · simp only [hc, if_true, emitted, List.append_nil]
    rw [← hc]; exact h
  · simp only [hc, if_false, emitted]
    refine ⟨?_, ?_⟩
    · rw [List.chain'_append]
      refine ⟨h.1, List.chain'_singleton _, ?_⟩
      intro x hx y hy
      simp only [List.head?_cons, Option.mem_def, Option.some.injEq] at hy
      subst hy
      rw [h.2 x hx]
      exact hc
    · intro s hs
      simpa using hs.symm

theorem emitOK_continueQueue (n : Node) (h : EmitOK n) : EmitOK (continueQueue n) :=
  emitOK_congr n _ h (cq_conStatus n) (cq_trace n)

theorem emitOK_doRead (n : Node) (r : Request) (h : EmitOK n) : EmitOK (doRead n r) := by
  by_cases h4 : n.isoConnectionState = 4
  · rw [doRead_start n r h4]
    have h1 := emitOK_record _ (.readAllItems n.ops.length)
      (emitOK_record n (.addItems r.addressArray) h rfl) rfl
    exact emitOK_congr _ _ h1 rfl (by simp)
  · rw [doRead_failFast n r h4]
    apply emitOK_continueQueue
    unfold failedFast
    refine emitOK_record _ _ ?_ rfl
    refine emitOK_congr (onConnectionChange { n with isBusy := true } .disconnected) _ ?_ rfl rfl
    exact emitOK_occ _ _ (emitOK_congr n _ h rfl rfl)

theorem emitOK_step (n m : Node) (e : Event) (h : EmitOK n) (hs : step n e = some m) :
    EmitOK m := by
  cases e with
  | submit a =>
    simp only [step, Option.some.injEq] at hs
    subst hs
    by_cases hb : n.isBusy = true
    · rw [submit_busy n a hb]; exact emitOK_congr n _ h rfl rfl
    · rw [submit_idle n a (by simpa using hb)]
      exact emitOK_doRead _ _ (emitOK_congr n _ h rfl rfl)
  | codecComplete i bad vals rt =>
    simp only [step] at hs
    split at hs
    · rename_i op hop
      split_ifs at hs with hp
      simp only [Option.some.injEq] at hs
      subst hs
      by_cases ht : op.timeoutHit = true
      · rw [wrappedCallback_late n i op bad vals rt ht]
        exact emitOK_congr n _ h rfl rfl
      · by_cases hx : toStringThrows bad = true
        · rw [wrappedCallback_throws n i op bad vals rt (by simpa using ht) hx]
          exact emitOK_congr n _ h rfl rfl
        rw [wrappedCallback_eq n i op bad vals rt (by simpa using ht) (by simpa using hx)]
        apply emitOK_continueQueue
        have hc : EmitOK (classified n i op bad) := by
          unfold classified
          split_ifs
          · exact emitOK_occ _ _ (emitOK_congr n _ h rfl rfl)
          · exact emitOK_congr n _ h rfl rfl
        refine emitOK_record _ _ ?_ rfl
        cases rt
        · exact emitOK_record _ _ hc rfl
        · exact emitOK_record _ _ (emitOK_record _ _ hc rfl) rfl
    · cases hs
  | readTimeout i rt =>
    simp only [step] at hs
    split at hs
    · rename_i op hop
      split_ifs at hs with hp
      simp only [Option.some.injEq] at hs
      subst hs
      rw [timeoutCallback_eq]
      apply emitOK_continueQueue
      apply emitOK_occ
      refine emitOK_record _ _ ?_ rfl
      have h0 : EmitOK { n with
          ops := n.ops.set i { op with timeoutHit := true, timerArmed := false }
          isBusy := false } := emitOK_congr n _ h rfl rfl
      cases rt
      · exact emitOK_record _ _ h0 rfl
      · exact emitOK_record _ _ (emitOK_record _ _ h0 rfl) rfl
    · cases hs
  | dispatch =>
    simp only [step] at hs
    split at hs
    · simp only [Option.some.injEq] at hs
      subst hs
      exact emitOK_doRead _ _ (emitOK_congr n _ h rfl rfl)
    · cases hs
  | codecState k =>
    simp only [step, Option.some.injEq] at hs
    subst hs; exact emitOK_congr n _ h rfl rfl
  | connectError msg =>
    simp only [step, Option.some.injEq] at hs
    subst hs
    unfold enhancedMCProtocolErrorHandling
    refine emitOK_congr (record (onConnectionChange (record n _) .error) _) _ ?_ rfl rfl
    exact emitOK_record _ _ (emitOK_occ _ _ (emitOK_record _ _ h rfl)) rfl
  | reconnectTimer outcome =>
    simp only [step] at hs
    split_ifs at hs
    simp only [Option.some.injEq] at hs
    subst hs
    have h0 : EmitOK { n with reconnectTimers := n.reconnectTimers - 1 } :=
      emitOK_congr n _ h rfl rfl
    unfold reconnect
    split_ifs
    · have h1 := emitOK_record _ .dropConnection (emitOK_occ _ .connecting h0) rfl
      cases outcome with
      | ok => exact emitOK_record _ _ h1 rfl
      | dropThrows msg => exact emitOK_occ _ _ (emitOK_record _ _ h1 rfl)
      | initiateThrows msg =>
        exact emitOK_occ _ _ (emitOK_record _ _ (emitOK_record _ _ h1 rfl) rfl)
    · exact h0
  | connectCallback result =>
    simp only [step, Option.some.injEq] at hs
    subst hs
    unfold connectCallback
    split_ifs <;> exact emitOK_occ _ _ h
  | close =>
    simp only [step, Option.some.injEq] at hs
    subst hs
    exact emitOK_record _ _ (emitOK_occ _ _ (emitOK_record _ _ h rfl)) rfl

theorem emitOK_run (es : List Event) (n m : Node) (h : EmitOK n) (hr : run n es = some m) :
    EmitOK m := by
  induction es generalizing n with
  | nil =>
    simp only [run, Option.some.injEq] at hr
    subst hr; exact h
  | cons e es ih =>
    simp only [run] at hr
    cases hs : step n e with
    | none => simp [hs] at hr
    | some k =>
      rw [hs] at hr
      exact ih k (emitOK_step n k e h hs) hr

theorem emitOK_init (config : Config) (iso : Nat) : EmitOK (mcConnectionNode config iso) := by
  unfold mcConnectionNode connectToPLC
  simp only [ne_eq, not_false_eq_true, and_self, if_true, reduceCtorEq]
  refine emitOK_record _ _ (emitOK_occ _ _ (emitOK_record _ _ ?_ rfl)) rfl
  exact ⟨List.chain'_nil, fun s hs => by simp [emitted] at hs⟩

theorem includes_iff (s : List Char) (needle : String) :
    includes s needle = true ↔ needle.data <:+: s := by
  unfold includes
  rw [List.any_eq_true]
  constructor
  · rintro ⟨t, ht, hp⟩
    rw [List.mem_tails] at ht
    rw [List.isPrefixOf_iff_prefix] at hp
    exact List.infix_iff_prefix_suffix.mpr ⟨t, hp, ht⟩
  · intro h
    obtain ⟨t, hp, hs⟩ := List.infix_iff_prefix_suffix.mp h
    exact ⟨t, (List.mem_tails _ _).mpr hs, List.isPrefixOf_iff_prefix.mpr hp⟩

theorem isConnectionError_iff (e : JsVal) : isConnectionError e = true ↔ ConnectionLoss e := by
  unfold isConnectionError ConnectionLoss
  cases jsToString e with
  | none => simp
  | some text =>
    simp only [vocabulary, Bool.or_eq_true, includes_iff, Option.some.injEq, exists_eq_left',
      List.mem_cons, List.mem_singleton, exists_eq_or_imp, exists_eq_left, List.not_mem_nil,
      false_and, exists_false, or_false, or_assoc]

theorem isConnectionError_of_falsy (e : JsVal) (h : truthy e = false) :
    isConnectionError e = false := by
  cases e with
  | undefined => decide
  | null => decide
  | bool b => cases b <;> decide
  | num n =>
    have : n = 0 := by simpa [truthy] using h
    subst this; decide
  | nan => decide
  | str s =>
    have hs : s.data = [] := by simpa [truthy] using h
    simp [isConnectionError, jsToString, toLowerCase, hs, includes]
  | arr items => simp [truthy] at h
  | obj props => simp [truthy] at h
  | error name message => simp [truthy] at h

theorem classified_conStatus (n : Node) (i : Nat) (op : Op) (e : JsVal) :
    (classified n i op e).conStatus =
      if (truthy e && isConnectionError e) = true then .disconnected else n.conStatus := by
  unfold classified
  split_ifs <;> simp

theorem wrappedCallback_trace (n : Node) (i : Nat) (op : Op) (e v : JsVal) (removeThrows : Bool)
    (ht : op.timeoutHit = false) (hx : toStringThrows e = false) :
    (wrappedCallback n i op e v removeThrows).trace =
      n.trace ++
        (if (truthy e && isConnectionError e) = true ∧ n.conStatus ≠ .disconnected
          then [.emit .disconnected] else []) ++
        [.removeItems op.request.addressArray] ++
        (if removeThrows then [.consoleWarn] else []) ++
        [.valuesReady op.request.id e v] := by
  rw [wrappedCallback_eq n i op e v removeThrows ht hx, cq_trace]
  cases removeThrows <;> simp [(classified_frame n i op e).2.2.2.2.2]

theorem wrappedCallback_conStatus (n : Node) (i : Nat) (op : Op) (e v : JsVal)
    (removeThrows : Bool) (ht : op.timeoutHit = false) (hx : toStringThrows e = false) :
    (wrappedCallback n i op e v removeThrows).conStatus =
      if (truthy e && isConnectionError e) = true then .disconnected else n.conStatus := by
  rw [wrappedCallback_eq n i op e v removeThrows ht hx, cq_conStatus]
  cases removeThrows <;> simp [classified_conStatus]

theorem code_test_iff (e : JsVal) :
    (truthy e && isConnectionError e) = true ↔ ConnectionLoss e := by
  rw [← isConnectionError_iff]
  cases ht : truthy e
  · simp [isConnectionError_of_falsy e ht]
  · simp

/-- Error classification of a codec completion before the timeout whose
error is falsy or has a text: `conStatus` ends `'disconnected'` if the
lower-cased text of `e` contains a word of the vocabulary and is unchanged
otherwise; a change event is emitted only in the first case; and the
continuation is invoked once, with `(e, v)`. -/
theorem wrappedCallback_classifies (node : Node) (i : Nat) (op : Op) (e v : JsVal)
    (removeThrows : Bool) (ht : op.timeoutHit = false) (hx : toStringThrows e = false) :
    (wrappedCallback node i op e v removeThrows).conStatus =
        (if ConnectionLoss e then .disconnected else node.conStatus) ∧
      (wrappedCallback node i op e v removeThrows).trace =
        node.trace ++
          (if ConnectionLoss e ∧ node.conStatus ≠ .disconnected then [.emit .disconnected]
            else []) ++
          [.removeItems op.request.addressArray] ++
          (if removeThrows then [.consoleWarn] else []) ++
          [.valuesReady op.request.id e v] := by
  constructor
  · rw [wrappedCallback_conStatus node i op e v removeThrows ht hx]
    simp only [code_test_iff]
  · rw [wrappedCallback_trace node i op e v removeThrows ht hx]
    simp only [code_test_iff]

theorem forgetTrace_record (n : Node) (a : Action) : forgetTrace (record n a) = forgetTrace n :=
  rfl

theorem forgetTrace_continueQueue (n : Node) :
    forgetTrace (continueQueue n) = continueQueue (forgetTrace n) := by
  unfold continueQueue forgetTrace
  split <;> simp_all

theorem forgetTrace_occ (n : Node) (c : ConStatus) :
    forgetTrace (onConnectionChange n c) = { forgetTrace n with conStatus := c } := by
  unfold onConnectionChange forgetTrace record
  split_ifs with h
  · rfl
  · have h' : n.conStatus = c := by simpa using h
    subst h'; rfl

theorem timeoutCallback_trace (n : Node) (i : Nat) (op : Op) (removeThrows : Bool) :
    (timeoutCallback n i op removeThrows).trace =
      n.trace ++ [.removeItems op.request.addressArray] ++
        (if removeThrows then [.consoleWarn] else []) ++
        [.valuesReady op.request.id (.str "Read operation timed out") .null] ++
        (if n.conStatus = .disconnected then [] else [.emit .disconnected]) := by
  rw [timeoutCallback_eq, cq_trace, occ_trace]
  cases removeThrows <;> simp

theorem onClose_trace (n : Node) :
    (onClose n).trace =
      n.trace ++ [.dropConnection] ++
        (if n.conStatus = .disconnected then [] else [.emit .disconnected]) ++
        [.removeAllListeners] := by
  unfold onClose
  simp [occ_trace]

theorem onClose_conStatus (n : Node) : (onClose n).conStatus = .disconnected := by
  unfold onClose
  simp

theorem setProp_fresh (obj : Props) (key : String) (value : Scalar) (hk : key ≠ "__proto__")
    (hf : ∀ p ∈ obj, p.1 ≠ key) : setProp obj key value = obj ++ [(key, value)] := by
  unfold setProp
  rw [if_neg hk]
  have : obj.any (fun p => p.1 == key) = false := by
    rw [List.any_eq_false]
    intro p hp
    simpa using hf p hp
  simp [this]

theorem assignEach_aligned (items : List Scalar) (addrs : List String) (index : Nat)
    (result : Props) (hp : "__proto__" ∉ addrs) (hd : addrs.Nodup)
    (hf : ∀ a ∈ addrs, ∀ p ∈ result, p.1 ≠ a) :
    assignEach items index addrs result =
      result ++ (addrs.enumFrom index).map (fun p => (p.2, elementOrNull items p.1)) := by
  induction addrs generalizing index result with
  | nil => simp [assignEach]
  | cons a rest ih =>
    have ha : a ≠ "__proto__" := fun h => hp (h ▸ List.mem_cons_self _ _)
    have hrest : "__proto__" ∉ rest := fun h => hp (List.mem_cons_of_mem _ h)
    obtain ⟨hnotin, hnodup⟩ := List.nodup_cons.mp hd
    rw [assignEach, setProp_fresh result a _ ha (hf a (List.mem_cons_self _ _)),
      ih (index + 1) _ hrest hnodup]
    · simp [List.enumFrom]
    · intro b hb p hp'
      rcases List.mem_append.mp hp' with h | h
      · exact hf b (List.mem_cons_of_mem _ hb) p h
      · simp only [List.mem_singleton] at h
        subst h
        intro hab
        have hab' : a = b := hab
        exact hnotin (hab' ▸ hb)

theorem valuesReady_success (node : ReadsNode) (anythingBad values : JsVal)
    (hb : truthy anythingBad = false) (hv : truthy values = true)
    (he : isEmptyArray values = false) :
    valuesReady node anythingBad values =
      match node.outputFormat with
      | .json => tell (markConnected node)
          (.send (.object (jsonResult (node.address.filter keepName) values)) none)
      | .array => tell (markConnected node)
          (.send (.array (arrayResult (node.address.filter keepName) values)) none) := by
  unfold valuesReady markConnected
  simp only [hb, hv, he, Bool.false_eq_true, if_false, Bool.not_true, Bool.or_self]
  split_ifs <;> cases hf : node.outputFormat <;> simp [tell, hf]

theorem valuesReady_empty (node : ReadsNode) (anythingBad values : JsVal)
    (hb : truthy anythingBad = false) (hv : truthy values = false) :
    valuesReady node anythingBad values =
      match node.outputFormat with
      | .json => tell (tell (markConnected node) (.warn "Received empty or null values from PLC"))
          (.send (.object []) none)
      | .array => tell (tell (markConnected node) (.warn "Received empty or null values from PLC"))
          (.send (.array []) none) := by
  unfold valuesReady markConnected
  simp only [hb, hv, Bool.false_eq_true, if_false, Bool.not_false, Bool.true_or, if_true]
  split_ifs <;> cases hf : node.outputFormat <;> simp [tell, hf]

/-- The array case of the `'json'` format away from the key `__proto__`: for
distinct addresses that pass the filter, none of them `__proto__`, and a
non-empty array of values, the payload has the addresses as keys, in order,
each with the value at its index, or `null` where that value is `undefined`
or missing. -/
theorem json_payload_aligned (node : ReadsNode) (anythingBad : JsVal) (item : Scalar)
    (items : List Scalar) (hb : truthy anythingBad = false) (hj : node.outputFormat = .json)
    (hk : ∀ a ∈ node.address, keepName a = true) (hd : node.address.Nodup)
    (hp : "__proto__" ∉ node.address) :
    valuesReady node anythingBad (.arr (item :: items)) =
      tell (markConnected node)
        (.send (.object (node.address.enum.map
          (fun p => (p.2, elementOrNull (item :: items) p.1)))) none) := by
  rw [valuesReady_success node anythingBad (.arr (item :: items)) hb rfl rfl, hj]
  have hfilter : node.address.filter keepName = node.address :=
    List.filter_eq_self.mpr hk
  simp only [hfilter, jsonResult]
  rw [assignEach_aligned _ _ _ _ hp hd (by simp)]
  simp [List.enum]

theorem jsonResult_single (a0 : String) (rest : List String) (values : JsVal) (v : Scalar)
    (hs : values.scalar? = some v) (hp : a0 ≠ "__proto__") :
    jsonResult (a0 :: rest) values = [(a0, v)] ∧ arrayResult (a0 :: rest) values = [[(a0, v)]] := by
  cases values <;> simp [JsVal.scalar?] at hs <;> subst hs <;>
    simp [jsonResult, arrayResult, JsVal.scalar?, setProp, hp]

theorem isEmptyArray_of_scalar (values : JsVal) (v : Scalar) (hs : values.scalar? = some v) :
    isEmptyArray values = false := by
  cases values <;> simp [JsVal.scalar?] at hs <;> rfl

/-! ## The claims -/

/-- C1, single flight, evaluated on the code: with the codec connected, two
requests are submitted, the read timeout of the first fires (releasing
`isBusy` and deferring the second), a third is submitted before the deferred
dispatch runs, then the dispatch runs.  The third and the second request are
in flight together. -/
theorem single_flight_violated :
    (run (mcConnectionNode plainConfig 0) overlapAfterTimeout).map
        (fun node => (inFlight node, node.isBusy, node.readQueue)) =
      some ([{ id := 2, addressArray := ["D102"] }, { id := 1, addressArray := ["D101"] }],
        true, []) := by
  decide

/-- C2, submission order, evaluated on the code: the codec is connected and
every read succeeds; the third request is submitted between the completion
of the first and the deferred dispatch of the second, is handed to the codec
before the second, and its continuation runs before that of the second:
the continuations run in the order 0, 2, 1. -/
theorem submission_order_violated :
    (run (mcConnectionNode plainConfig 0) overlapAfterSuccess).map
        (fun node => (invoked node.trace, node.isoConnectionState)) =
      some ([0, 2, 1], 4) := by
  decide

/-- C3, exactly-once completion: whatever events have happened since the
node was created, none of them a codec completion at whose error
`wrappedCallback` throws (a successful read carries no error), once nothing is
outstanding (no codec read, no timer, no deferred dispatch) the backlog is
empty and the continuations invoked are exactly those of the submitted
requests, each once.  The codec need not stay connected and reads need not
succeed for this. -/
theorem exactly_once_completion (config : Config) (iso : Nat) (es : List Event) (node : Node)
    (hret : ∀ e ∈ es, e.returns = true)
    (hrun : run (mcConnectionNode config iso) es = some node) (hq : quiescent node) :
    node.readQueue = [] ∧ (invoked node.trace).Perm (List.range (submits es)) := by
  have hinv := inv_run es _ node (inv_init config iso) hret hrun
  have hsub := submitted_run es _ node hrun
  have h0 : (mcConnectionNode config iso).submitted = 0 := (frame_connectToPLC _).submitted
  rw [h0, zero_add] at hsub
  refine ⟨(waiting_of_quiescent node hinv hq 0).1, ?_⟩
  rw [List.perm_iff_count]
  intro id
  have h1 := hinv.once id
  rw [(waiting_of_quiescent node hinv hq id).2, zero_add, hsub] at h1
  rw [count_invoked]
  simp only [delivered] at h1
  rw [h1]
  by_cases hid : id < submits es
  · rw [if_pos hid, List.count_eq_one_of_mem (List.nodup_range _) (List.mem_range.mpr hid)]
  · rw [if_neg hid, List.count_eq_zero_of_not_mem (by simpa using hid)]

/-- Three requests against a connected codec, all read successfully: the run
ends quiescent with the three continuations invoked once each. -/
theorem exactly_once_completion_witness :
    (∀ e ∈ threeReads, e.returns = true) ∧
      run (mcConnectionNode plainConfig 0) threeReads = some threeReadsDone ∧
      quiescent threeReadsDone ∧ invoked threeReadsDone.trace = [0, 1, 2] ∧
      threeReadsDone.readQueue = [] ∧
      (invoked threeReadsDone.trace).Perm (List.range (submits threeReads)) :=
  ⟨by decide, by decide, by decide, by decide,
    exactly_once_completion plainConfig 0 threeReads threeReadsDone (by decide) (by decide)
      (by decide)⟩

/-- C4, late completion after a timeout: in every reachable state, for an
activation whose timeout timer has fired (`timeoutHit` is set), the
continuation of its request has been invoked exactly once, with
`('Read operation timed out', null)`, and a call of its `wrappedCallback`,
with any arguments, changes neither the trace (so no continuation and no
codec call), nor `isBusy`, the backlog, the deferred dispatches or `conStatus`. -/
theorem late_completion_discarded (config : Config) (iso : Nat) (es : List Event) (node : Node)
    (i : Nat) (op : Op) (hrun : run (mcConnectionNode config iso) es = some node)
    (hi : node.ops[i]? = some op) (ht : op.timeoutHit = true) :
    node.trace.filter (Action.deliversTo op.request.id) = [timedOutResult op.request.id] ∧
      ∀ (anythingBad values : JsVal) (removeThrows : Bool),
        (wrappedCallback node i op anythingBad values removeThrows).trace = node.trace ∧
        (wrappedCallback node i op anythingBad values removeThrows).isBusy = node.isBusy ∧
        (wrappedCallback node i op anythingBad values removeThrows).readQueue = node.readQueue ∧
        (wrappedCallback node i op anythingBad values removeThrows).immediates =
          node.immediates ∧
        (wrappedCallback node i op anythingBad values removeThrows).conStatus =
          node.conStatus := by
  have hinv := core_run es _ node (inv_init config iso).toCore hrun
  constructor
  · apply filter_eq_singleton _ _ _ (hinv.timedOut op (List.getElem?_mem hi) ht)
    · simp [timedOutResult, Action.deliversTo]
    · have := hinv.once op.request.id
      simp only [delivered] at this
      split_ifs at this <;> omega
  · intro e v rt
    rw [wrappedCallback_late node i op e v rt ht]
    exact ⟨rfl, rfl, rfl, rfl, rfl⟩

/-- A read whose timer fires while a second request waits: the first
continuation has received the timeout once, and the late completion is discarded. -/
theorem late_completion_discarded_witness :
    run (mcConnectionNode plainConfig 0) timedOutRun = some timedOutNode ∧
      timedOutNode.ops[0]? = some timedOutOp ∧ timedOutOp.timeoutHit = true ∧
      (timedOutNode.trace.filter (Action.deliversTo timedOutOp.request.id) =
          [timedOutResult timedOutOp.request.id] ∧
        ∀ (anythingBad values : JsVal) (removeThrows : Bool),
          (wrappedCallback timedOutNode 0 timedOutOp anythingBad values removeThrows).trace =
            timedOutNode.trace ∧
          (wrappedCallback timedOutNode 0 timedOutOp anythingBad values removeThrows).isBusy =
            timedOutNode.isBusy ∧
          (wrappedCallback timedOutNode 0 timedOutOp anythingBad values removeThrows).readQueue =
            timedOutNode.readQueue ∧
          (wrappedCallback timedOutNode 0 timedOutOp anythingBad values removeThrows).immediates =
            timedOutNode.immediates ∧
          (wrappedCallback timedOutNode 0 timedOutOp anythingBad values removeThrows).conStatus =
            timedOutNode.conStatus) :=
  ⟨by decide, by decide, by decide,
    late_completion_discarded plainConfig 0 timedOutRun timedOutNode 0 timedOutOp (by decide)
      (by decide) (by decide)⟩

/-- C5 as stated fails: the node is created, the codec reaches its connected
state 4 and has not yet called `connectCallback`, so `conStatus` is
`'connecting'` and nothing is in flight; a request submitted now is handed to
the codec (`addItems`, `readAllItems`) and its continuation is not invoked. -/
theorem fail_fast_connecting_counterexample :
    (run (mcConnectionNode plainConfig 0) [.codecState 4]).map
        (fun node => (node.conStatus, node.isBusy,
          (readDataByAddressArray node ["D100"]).trace.drop node.trace.length)) =
      some (.connecting, false, [.addItems ["D100"], .readAllItems 0]) := by
  decide

/-- C5, amended: a request submitted while nothing is in flight and the
codec's indicator `isoConnectionState` is not 4 is failed at once: the only
actions are the change event to `'disconnected'` (when `conStatus` was
different) and the invocation of the continuation with
`('Connection not available', null)`; no codec call is issued, no activation
is created, `isBusy` stays clear and `conStatus` is `'disconnected'`. -/
theorem fail_fast_when_codec_not_connected (node : Node) (addressArray : List String)
    (hb : node.isBusy = false) (h4 : node.isoConnectionState ≠ 4) :
    (readDataByAddressArray node addressArray).trace =
        node.trace ++ (if node.conStatus = .disconnected then [] else [.emit .disconnected]) ++
          [.valuesReady node.submitted (.str "Connection not available") .null] ∧
      (readDataByAddressArray node addressArray).ops = node.ops ∧
      (readDataByAddressArray node addressArray).isBusy = false ∧
      (readDataByAddressArray node addressArray).conStatus = .disconnected := by
  rw [submit_idle node addressArray hb,
    doRead_failFast { node with submitted := node.submitted + 1 } _ h4]
  simp [failedFast, occ_trace]

/-- A request submitted right after the node was created, while the codec is
still at state 0 and `conStatus` is `'connecting'`. -/
theorem fail_fast_when_codec_not_connected_witness :
    (mcConnectionNode plainConfig 0).conStatus = .connecting ∧
      (readDataByAddressArray (mcConnectionNode plainConfig 0) ["D100"]).trace =
        (mcConnectionNode plainConfig 0).trace ++
          (if (mcConnectionNode plainConfig 0).conStatus = .disconnected then []
            else [.emit .disconnected]) ++
          [.valuesReady (mcConnectionNode plainConfig 0).submitted
            (.str "Connection not available") .null] ∧
      (readDataByAddressArray (mcConnectionNode plainConfig 0) ["D100"]).ops =
        (mcConnectionNode plainConfig 0).ops ∧
      (readDataByAddressArray (mcConnectionNode plainConfig 0) ["D100"]).isBusy = false ∧
      (readDataByAddressArray (mcConnectionNode plainConfig 0) ["D100"]).conStatus =
        .disconnected :=
  ⟨by decide,
    fail_fast_when_codec_not_connected (mcConnectionNode plainConfig 0) ["D100"] (by decide)
      (by decide)⟩

/-- C6 as stated fails: three requests are submitted against a connected
codec, the first completes (releasing `isBusy` and deferring the second, the
third stays in the backlog), the codec leaves its connected state, and a
fourth request is submitted.  `isBusy` is clear, the request is failed fast,
and the backlog loses its entry. -/
theorem submit_idle_backlog_counterexample :
    (run (mcConnectionNode plainConfig 0) backlogWindow).map
        (fun node => (node.isBusy, node.readQueue,
          (readDataByAddressArray node ["D103"]).readQueue,
          (readDataByAddressArray node ["D103"]).immediates)) =
      some (false, [{ id := 2, addressArray := ["D102"] }], [],
        [{ id := 1, addressArray := ["D101"] }, { id := 2, addressArray := ["D102"] }]) := by
  decide

/-- C6, amended.  `readDataByAddressArray` in a state with `isBusy` set
appends the request at the tail of the backlog and does nothing else (no
codec call, no continuation; only the submission index advances).  With
`isBusy` clear and the codec at state 4 the request goes in flight: `isBusy`
is set, `addItems` and `readAllItems` are issued, the backlog is unchanged.
With `isBusy` clear and the codec not at state 4 the request is failed fast:
`isBusy` stays clear, its continuation gets `('Connection not available', null)`,
no codec call is issued, and an empty backlog stays empty with nothing deferred. -/
theorem submit_behaviour (node : Node) (addressArray : List String) :
    (node.isBusy = true →
      readDataByAddressArray node addressArray =
        { node with
          submitted := node.submitted + 1
          readQueue := node.readQueue ++
            [{ id := node.submitted, addressArray := addressArray }] }) ∧
    (node.isBusy = false → node.isoConnectionState = 4 →
      readDataByAddressArray node addressArray =
        { node with
          submitted := node.submitted + 1
          isBusy := true
          ops := node.ops ++
            [{ request := { id := node.submitted, addressArray := addressArray },
               timeoutMs := timeoutMs node.globalTimeout,
               timeoutHit := false, timerArmed := true, callbackPending := true }]
          trace := node.trace ++ [.addItems addressArray, .readAllItems node.ops.length] }) ∧
    (node.isBusy = false → node.isoConnectionState ≠ 4 →
      (readDataByAddressArray node addressArray).isBusy = false ∧
      (readDataByAddressArray node addressArray).ops = node.ops ∧
      (readDataByAddressArray node addressArray).trace =
        node.trace ++ (if node.conStatus = .disconnected then [] else [.emit .disconnected]) ++
          [.valuesReady node.submitted (.str "Connection not available") .null] ∧
      (node.readQueue = [] →
        (readDataByAddressArray node addressArray).readQueue = [] ∧
        (readDataByAddressArray node addressArray).immediates = node.immediates)) := by
  refine ⟨submit_busy node addressArray, ?_, ?_⟩
  · intro hb h4
    rw [submit_idle node addressArray hb,
      doRead_start { node with submitted := node.submitted + 1 } _ h4]
  · intro hb h4
    rw [submit_idle node addressArray hb,
      doRead_failFast { node with submitted := node.submitted + 1 } _ h4, cq_readQueue,
      cq_immediates]
    refine ⟨by simp [failedFast], by simp [failedFast], by simp [failedFast, occ_trace], ?_⟩
    intro hq
    simp [failedFast, hq]

/-- A submit while a read is in flight, with one request already waiting:
the new request goes behind it; and a submit to the freshly created node,
whose codec is not connected and whose backlog is empty. -/
theorem submit_behaviour_witness :
    run (mcConnectionNode plainConfig 0) twoSubmitted = some twoSubmittedNode ∧
      twoSubmittedNode.isBusy = true ∧
      twoSubmittedNode.readQueue = [{ id := 1, addressArray := ["D101"] }] ∧
      (readDataByAddressArray twoSubmittedNode ["D102"]).readQueue =
        [{ id := 1, addressArray := ["D101"] }, { id := 2, addressArray := ["D102"] }] ∧
      (readDataByAddressArray twoSubmittedNode ["D102"]).trace = twoSubmittedNode.trace ∧
      ((readDataByAddressArray (mcConnectionNode plainConfig 0) ["D100"]).readQueue = [] ∧
        (readDataByAddressArray (mcConnectionNode plainConfig 0) ["D100"]).immediates =
          (mcConnectionNode plainConfig 0).immediates) :=
  ⟨by decide, by decide, by decide,
    by rw [(submit_behaviour twoSubmittedNode ["D102"]).1 (by decide)]; decide,
    by rw [(submit_behaviour twoSubmittedNode ["D102"]).1 (by decide)],
    ((submit_behaviour (mcConnectionNode plainConfig 0) ["D100"]).2.2 (by decide)
      (by decide)).2.2.2 (by decide)⟩

/-- C7, change events: a call `onConnectionChange(s)` emits one event
carrying `s` exactly when `s` differs from the recorded `conStatus`, and
leaves `conStatus = s`; over any sequence of calls, each emitted event
differs from the one before it (and the first from the state recorded before
the calls); a run of `k + 1` identical signals from a different prior state
emits exactly one event; and in every state the node reaches, whatever the
events, no two consecutive change events of its trace carry the same state. -/
theorem change_events_iff_state_changes (node : Node) (s : ConStatus)
    (signals : List ConStatus) (k : Nat) :
    (onConnectionChange node s).trace =
        node.trace ++ (if s ≠ node.conStatus then [.emit s] else []) ∧
      (onConnectionChange node s).conStatus = s ∧
      List.Chain (fun a b => a ≠ b) node.conStatus
        (emitted ((signalAll node signals).trace.drop node.trace.length)) ∧
      (s ≠ node.conStatus →
        emitted ((signalAll node (List.replicate (k + 1) s)).trace.drop node.trace.length) =
          [s]) ∧
      ∀ (config : Config) (iso : Nat) (es : List Event) (final : Node),
        run (mcConnectionNode config iso) es = some final →
          List.Chain' (fun a b => a ≠ b) (emitted final.trace) := by
  refine ⟨?_, occ_conStatus node s, ?_, ?_,
    fun config iso es final hrun => (emitOK_run es _ final (emitOK_init config iso) hrun).1⟩
  · rw [occ_trace]
    by_cases hs : node.conStatus = s
    · simp [hs]
    · have hs' : ¬ s = node.conStatus := fun h => hs h.symm
      simp [hs, hs']
  · rw [signalAll_emitted]
    exact chain_changes signals node.conStatus
  · intro hs
    rw [signalAll_emitted]
    simp [List.replicate_succ, changes, hs, changes_replicate_same]

/-- Fifty `'disconnected'` signals to a node that is `'connecting'` emit one event. -/
theorem change_events_iff_state_changes_witness :
    (mcConnectionNode plainConfig 0).conStatus = .connecting ∧
      emitted ((signalAll (mcConnectionNode plainConfig 0)
        (List.replicate (49 + 1) .disconnected)).trace.drop
          (mcConnectionNode plainConfig 0).trace.length) = [.disconnected] :=
  ⟨by decide,
    (change_events_iff_state_changes (mcConnectionNode plainConfig 0) .disconnected [] 49).2.2.2.1
      (by decide)⟩

/-- C8 as stated fails: the connect-error handler runs twice, the first
reconnect timer fires (one link-open, `conStatus` is `'connecting'`), a read
is submitted and failed fast (forcing `'disconnected'`), and the second timer
fires: it issues a second link-open.  The node had issued one link-open at
creation; it ends with three. -/
theorem one_reconnect_counterexample :
    linkOpens (mcConnectionNode plainConfig 0).trace = 1 ∧
      (run (mcConnectionNode plainConfig 0)
        [.connectError "ECONNREFUSED", .connectError "ECONNREFUSED", .reconnectTimer .ok,
         .submit ["D100"], .reconnectTimer .ok]).map (fun node => linkOpens node.trace) =
        some 3 := by
  decide

/-- C8, amended: from any state, when the connect-error handler runs
`k >= 1` times and then `k` reconnect timers fire one after the other, with
no other event in between and the codec calls not throwing, exactly one
link-open is issued and `conStatus` ends `'connecting'`; and a reconnect
timer that finds `conStatus = 'connecting'` does nothing. -/
theorem one_reconnect_per_window (node : Node) (msgs : List String) (hk : msgs ≠ []) :
    (∃ final,
      run node (msgs.map Event.connectError ++
        List.replicate msgs.length (.reconnectTimer .ok)) = some final ∧
      linkOpens final.trace = linkOpens node.trace + 1 ∧ final.conStatus = .connecting) ∧
    ∀ (other : Node) (outcome : LinkOutcome),
      other.conStatus = .connecting → reconnect other outcome = other := by
  refine ⟨?_, fun other outcome hc => guard_reconnect other outcome hc⟩
  obtain ⟨m, hm, hc, ht, hl⟩ := connectErrors_run msgs node
  have hlen : msgs.length = (msgs.length - 1) + 1 := by
    have : 0 < msgs.length := List.length_pos.mpr hk
    omega
  have hpos : 0 < m.reconnectTimers := by omega
  have hce := hc hk
  rw [run_append, hm, Option.some_bind, hlen, List.replicate_succ]
  simp only [run, step, hpos, if_true]
  have hfirst : reconnect { m with reconnectTimers := m.reconnectTimers - 1 } .ok =
      { m with
        conStatus := .connecting
        reconnectTimers := m.reconnectTimers - 1
        trace := m.trace ++ [.emit .connecting, .dropConnection, .initiateConnection] } := by
    simp [reconnect, hce, onConnectionChange, record]
  rw [hfirst, Option.some_bind, idleTimers_run _ _ rfl
    (by show msgs.length - 1 ≤ m.reconnectTimers - 1; omega)]
  refine ⟨_, rfl, ?_, rfl⟩
  simp [linkOpens] at hl ⊢
  omega

/-- Two connect errors and then both reconnect timers: one new link-open. -/
theorem one_reconnect_per_window_witness :
    (run (mcConnectionNode plainConfig 0)
        [.connectError "ECONNREFUSED", .connectError "ETIMEDOUT", .reconnectTimer .ok,
         .reconnectTimer .ok]).map (fun node => linkOpens node.trace) = some 2 ∧
      ((∃ final,
        run (mcConnectionNode plainConfig 0)
          (["ECONNREFUSED", "ETIMEDOUT"].map Event.connectError ++
            List.replicate ["ECONNREFUSED", "ETIMEDOUT"].length (.reconnectTimer .ok)) =
          some final ∧
        linkOpens final.trace = linkOpens (mcConnectionNode plainConfig 0).trace + 1 ∧
        final.conStatus = .connecting) ∧
      ∀ (other : Node) (outcome : LinkOutcome),
        other.conStatus = .connecting → reconnect other outcome = other) :=
  ⟨by decide,
    one_reconnect_per_window (mcConnectionNode plainConfig 0) ["ECONNREFUSED", "ETIMEDOUT"]
      (by decide)⟩

/-- C9, `connectToPLC` is idempotent: called while `conStatus` is
`'connecting'` or `'connected'` it leaves the node as it is (no state change,
no event, no codec call); called in `'disconnected'` or `'error'` it issues
`dropConnection`, moves `conStatus` to `'connecting'` with one change event,
and issues one `initiateConnection`, nothing else; a second call right after
the first changes nothing. -/
theorem connect_idempotent (node : Node) :
    (node.conStatus = .connecting ∨ node.conStatus = .connected → connectToPLC node = node) ∧
      (node.conStatus = .disconnected ∨ node.conStatus = .error →
        connectToPLC node =
          { node with
            conStatus := .connecting
            trace := node.trace ++ [.dropConnection, .emit .connecting, .initiateConnection] }) ∧
      connectToPLC (connectToPLC node) = connectToPLC node := by
  refine ⟨?_, ?_, ?_⟩
  · intro h
    rcases h with h | h <;> simp [connectToPLC, h]
  · intro h
    rcases h with h | h <;> simp [connectToPLC, h, onConnectionChange, record]
  · cases hc : node.conStatus <;> simp [connectToPLC, hc, onConnectionChange, record]

/-- C10 as stated fails: a configured timeout of 0 is a number, and the
timeout armed for a read is 4500, not 0. -/
theorem read_timeout_zero_counterexample :
    (run (mcConnectionNode { timeout := .num 0 } 4) [.submit ["D100"]]).map
        (fun node => node.ops.map Op.timeoutMs) = some [.num 4500] := by
  decide

/-- C10, amended: in every reachable state, every read that reached the
codec was armed with the configured timeout when the configuration supplies
a number other than 0 and `NaN`, and with 4500 for every other configuration
value (absent, `null`, 0, `NaN`, booleans, every string, arrays, objects). -/
theorem read_timeout_default (config : Config) (iso : Nat) (es : List Event) (node : Node)
    (op : Op) (hrun : run (mcConnectionNode config iso) es = some node) (hop : op ∈ node.ops) :
    op.timeoutMs =
      match config.timeout with
      | .num n => if n = 0 then .num 4500 else .num n
      | _ => .num 4500 := by
  rw [← timeoutMs_config]
  exact (timeoutOK_run _ es _ node (timeoutOK_init config iso) hrun).2 op hop

/-- A configured timeout of 3000 is armed as 3000; the numeric string
`"3000"` is armed as 4500. -/
theorem read_timeout_default_witness :
    (run (mcConnectionNode { timeout := .str "3000" } 4) [.submit ["D100"]]).map
        (fun node => node.ops.map Op.timeoutMs) = some [.num 4500] ∧
      run (mcConnectionNode { timeout := .num 3000 } 4) [.submit ["D100"]] =
        some timeout3000Node ∧
      timeout3000Op ∈ timeout3000Node.ops ∧ timeout3000Op.timeoutMs = .num 3000 :=
  ⟨by decide, by decide, by decide,
    read_timeout_default { timeout := .num 3000 } 4 [.submit ["D100"]] timeout3000Node
      timeout3000Op (by decide) (by decide)⟩

/-- C11, error classification, evaluated on the code: a read is in flight on a
connected node and the codec completes it, before the timeout, with an error
object whose own property `toString` is not a function.  `anythingBad.toString()`
throws at line 198: the callback has cleared the timer and released `isBusy`,
and ends there.  `removeItems` is not called and the continuation is not
invoked, so it does not receive the pair. -/
theorem completion_lost_when_toString_throws :
    run (mcConnectionNode plainConfig 0) twoSubmitted = some twoSubmittedNode ∧
      twoSubmittedNode.ops[0]? = some firstOp ∧ firstOp.timeoutHit = false ∧
      truthy shadowedToString = true ∧ jsToString shadowedToString = none ∧
      (wrappedCallback twoSubmittedNode 0 firstOp shadowedToString .undefined false).trace =
        twoSubmittedNode.trace ∧
      invoked (wrappedCallback twoSubmittedNode 0 firstOp shadowedToString .undefined
        false).trace = [] ∧
      (wrappedCallback twoSubmittedNode 0 firstOp shadowedToString .undefined false).isBusy =
        false ∧
      (wrappedCallback twoSubmittedNode 0 firstOp shadowedToString .undefined false).conStatus =
        .connected := by
  decide

/-- C12, deregistration failures: for a codec completion before the timeout
that reaches the call of `removeItems` (line 198 has not thrown) and for a
timeout, the run in which `removeItems` throws differs from the run in which
it succeeds only by the `console.warn` in the trace: the error does not leave
the handler, the continuation gets the same arguments, every field of the
node is the same, `isBusy` is released, and the oldest backlog request, if
any, is handed to a deferred dispatch. -/
theorem deregistration_failure_harmless (node : Node) (i : Nat) (op : Op) (e v : JsVal)
    (ht : op.timeoutHit = false) (hx : toStringThrows e = false) :
    ((wrappedCallback node i op e v true).trace =
        node.trace ++
          (if ConnectionLoss e ∧ node.conStatus ≠ .disconnected then [.emit .disconnected]
            else []) ++
          [.removeItems op.request.addressArray, .consoleWarn, .valuesReady op.request.id e v] ∧
      (wrappedCallback node i op e v false).trace =
        node.trace ++
          (if ConnectionLoss e ∧ node.conStatus ≠ .disconnected then [.emit .disconnected]
            else []) ++
          [.removeItems op.request.addressArray, .valuesReady op.request.id e v] ∧
      forgetTrace (wrappedCallback node i op e v true) =
        forgetTrace (wrappedCallback node i op e v false) ∧
      (wrappedCallback node i op e v true).isBusy = false ∧
      (wrappedCallback node i op e v true).readQueue = node.readQueue.tail ∧
      (wrappedCallback node i op e v true).immediates =
        node.immediates ++ node.readQueue.take 1) ∧
    ((timeoutCallback node i op true).trace =
        node.trace ++
          [.removeItems op.request.addressArray, .consoleWarn,
            .valuesReady op.request.id (.str "Read operation timed out") .null] ++
          (if node.conStatus = .disconnected then [] else [.emit .disconnected]) ∧
      (timeoutCallback node i op false).trace =
        node.trace ++
          [.removeItems op.request.addressArray,
            .valuesReady op.request.id (.str "Read operation timed out") .null] ++
          (if node.conStatus = .disconnected then [] else [.emit .disconnected]) ∧
      forgetTrace (timeoutCallback node i op true) =
        forgetTrace (timeoutCallback node i op false) ∧
      (timeoutCallback node i op true).isBusy = false ∧
      (timeoutCallback node i op true).readQueue = node.readQueue.tail ∧
      (timeoutCallback node i op true).immediates =
        node.immediates ++ node.readQueue.take 1) := by
  refine ⟨⟨?_, ?_, ?_, ?_, ?_, ?_⟩, ⟨?_, ?_, ?_, ?_, ?_, ?_⟩⟩
  · rw [wrappedCallback_trace node i op e v true ht hx]; simp only [code_test_iff]; simp
  · rw [wrappedCallback_trace node i op e v false ht hx]; simp only [code_test_iff]; simp
  · rw [wrappedCallback_eq node i op e v true ht hx, wrappedCallback_eq node i op e v false ht hx]
    simp only [forgetTrace_continueQueue, forgetTrace_record, if_true, Bool.false_eq_true,
      if_false]
  · rw [wrappedCallback_eq node i op e v true ht hx]; simp [(classified_frame node i op e).1]
  · rw [wrappedCallback_eq node i op e v true ht hx, cq_readQueue]
    simp [(classified_frame node i op e).2.1]
  · rw [wrappedCallback_eq node i op e v true ht hx, cq_immediates]
    simp [(classified_frame node i op e).2.1, (classified_frame node i op e).2.2.1]
  · rw [timeoutCallback_trace]; simp
  · rw [timeoutCallback_trace]; simp
  · rw [timeoutCallback_eq, timeoutCallback_eq]
    simp only [forgetTrace_continueQueue, forgetTrace_occ, forgetTrace_record, if_true,
      Bool.false_eq_true, if_false]
  · rw [timeoutCallback_eq]; simp
  · rw [timeoutCallback_eq, cq_readQueue]; simp
  · rw [timeoutCallback_eq, cq_immediates]; simp

/-- A read in flight with a second request waiting: whether `removeItems`
throws or not, the waiting request is handed to the deferred dispatch. -/
theorem deregistration_failure_harmless_witness :
    twoSubmittedNode.ops[0]? = some firstOp ∧ firstOp.timeoutHit = false ∧
      toStringThrows (.bool false) = false ∧
      forgetTrace (wrappedCallback twoSubmittedNode 0 firstOp (.bool false) .null true) =
        forgetTrace (wrappedCallback twoSubmittedNode 0 firstOp (.bool false) .null false) ∧
      (wrappedCallback twoSubmittedNode 0 firstOp (.bool false) .null true).immediates =
        [{ id := 1, addressArray := ["D101"] }] ∧
      (timeoutCallback twoSubmittedNode 0 firstOp true).immediates =
        [{ id := 1, addressArray := ["D101"] }] :=
  ⟨by decide, by decide, by decide,
    (deregistration_failure_harmless twoSubmittedNode 0 firstOp (.bool false) .null
      (by decide) (by decide)).1.2.2.1,
    (deregistration_failure_harmless twoSubmittedNode 0 firstOp (.bool false) .null
      (by decide) (by decide)).1.2.2.2.2.2.trans (by decide),
    (deregistration_failure_harmless twoSubmittedNode 0 firstOp (.bool false) .null
      (by decide) (by decide)).2.2.2.2.2.2.trans (by decide)⟩

/-- C13, slot release, evaluated on the code: two requests are submitted
against a connected codec and the first read succeeds.  The second request
has been shifted off the backlog and its deferred `doRead` is pending, yet
`isBusy` is already clear; a third request submitted now is not appended to
the backlog but handed to the codec at once. -/
theorem slot_released_before_dispatch :
    (run (mcConnectionNode plainConfig 0) releaseWindow).map
        (fun node => (node.immediates, node.isBusy, node.readQueue,
          (readDataByAddressArray node ["D102"]).readQueue,
          (readDataByAddressArray node ["D102"]).trace.drop node.trace.length)) =
      some ([{ id := 1, addressArray := ["D101"] }], false, [], [],
        [.addItems ["D102"], .readAllItems 1]) := by
  decide

/-- C14, shutdown: from every state the close handler issues
`dropConnection`, leaves `conStatus = 'disconnected'`, emits one change event
when the state was not `'disconnected'` and none otherwise, and removes the
listeners last. -/
theorem shutdown_from_any_state (node : Node) :
    (onClose node).conStatus = .disconnected ∧
      (onClose node).trace =
        node.trace ++ [.dropConnection] ++
          (if node.conStatus = .disconnected then [] else [.emit .disconnected]) ++
          [.removeAllListeners] :=
  ⟨onClose_conStatus node, onClose_trace node⟩

/-- C15, link-open completion: `connectCallback` leaves `conStatus =
'connected'` exactly when its argument is `undefined`, and `'disconnected'`
for every other argument, `null` included; it emits a change event when the
state changes. -/
theorem link_open_completion (node : Node) (result : JsVal) :
    ((connectCallback node result).conStatus = .connected ↔ result = .undefined) ∧
      ((connectCallback node result).conStatus = .disconnected ↔ result ≠ .undefined) ∧
      (connectCallback node result).trace =
        node.trace ++
          (if node.conStatus = (connectCallback node result).conStatus then []
            else [.emit (connectCallback node result).conStatus]) := by
  unfold connectCallback
  cases result <;> simp [typeof, occ_trace]

/-- C16, `'json'` payload, evaluated on the code: with the configured
addresses `D100` and `__proto__` and the values `[5, 7]`, the message sent has
the payload with the single key `D100`.  The assignment `result['__proto__'] = 7`
goes to the accessor inherited from `Object.prototype` and creates no key. -/
theorem json_payload_drops_proto_key :
    (valuesReady (jsonReads ["D100", "__proto__"]) .null (.arr [.num 5, .num 7])).out.drop
        (jsonReads ["D100", "__proto__"]).out.length =
      [.send (.object [("D100", .num 5)]) none] := by
  decide

/-- C17 as stated fails: the single value `""` in `'json'` format, and the
single value `0` in array format, are caught by the data validation
`!values`; the node warns and sends an empty payload. -/
theorem single_falsy_value_counterexample :
    (valuesReady (jsonReads ["D100"]) .null (.str "")).out.drop (jsonReads ["D100"]).out.length =
        [.warn "Received empty or null values from PLC", .send (.object []) none] ∧
      (valuesReady (arrayReads ["D100"]) .null (.num 0)).out.drop
          (arrayReads ["D100"]).out.length =
        [.warn "Received empty or null values from PLC", .send (.array []) none] := by
  decide

/-- C17, amended: for a successful read whose `values` is a single value `v`
(neither array nor object) and a non-empty address list whose first address
`a0` is not `__proto__`: a truthy `v` yields the payload `{a0: v}` in `'json'`
format and `[{a0: v}]` in array format; an empty `v` (`null`, `undefined`, the
empty string) is reported as empty, with a warning and the payload `{}` or `[]`. -/
theorem single_value_case (node : ReadsNode) (anythingBad values : JsVal) (v : Scalar)
    (a0 : String) (rest : List String) (hb : truthy anythingBad = false)
    (hs : values.scalar? = some v) (ha : node.address.filter keepName = a0 :: rest)
    (hp : a0 ≠ "__proto__") :
    (truthy values = true →
      valuesReady node anythingBad values =
        match node.outputFormat with
        | .json => tell (markConnected node) (.send (.object [(a0, v)]) none)
        | .array => tell (markConnected node) (.send (.array [[(a0, v)]]) none)) ∧
    (v = .null ∨ v = .undefined ∨ v = .str "" →
      valuesReady node anythingBad values =
        match node.outputFormat with
        | .json =>
          tell (tell (markConnected node) (.warn "Received empty or null values from PLC"))
            (.send (.object []) none)
        | .array =>
          tell (tell (markConnected node) (.warn "Received empty or null values from PLC"))
            (.send (.array []) none)) := by
  constructor
  · intro hv
    rw [valuesReady_success node anythingBad values hb hv (isEmptyArray_of_scalar values v hs),
      ha, (jsonResult_single a0 rest values v hs hp).1,
      (jsonResult_single a0 rest values v hs hp).2]
  · intro hv
    apply valuesReady_empty node anythingBad values hb
    rcases hv with h | h | h <;> subst h <;> cases values <;>
      simp [JsVal.scalar?] at hs <;> (try subst hs) <;> simp [truthy]

/-- The single value 7 in `'json'` format, the single value `"on"` in array
format, and the single value `null`. -/
theorem single_value_case_witness :
    valuesReady (jsonReads ["D100", "D101"]) .null (.num 7) =
        tell (markConnected (jsonReads ["D100", "D101"]))
          (.send (.object [("D100", .num 7)]) none) ∧
      valuesReady (arrayReads ["D100", "D101"]) (.bool false) (.str "on") =
        tell (markConnected (arrayReads ["D100", "D101"]))
          (.send (.array [[("D100", .str "on")]]) none) ∧
      (valuesReady (jsonReads ["D100", "D101"]) .null .null).out.drop
          (jsonReads ["D100", "D101"]).out.length =
        [.warn "Received empty or null values from PLC", .send (.object []) none] :=
  ⟨(single_value_case (jsonReads ["D100", "D101"]) .null (.num 7) (.num 7) "D100" ["D101"]
      (by decide) (by decide) (by decide) (by decide)).1 (by decide),
    (single_value_case (arrayReads ["D100", "D101"]) (.bool false) (.str "on") (.str "on") "D100"
      ["D101"] (by decide) (by decide) (by decide) (by decide)).1 (by decide),
    by
      rw [(single_value_case (jsonReads ["D100", "D101"]) .null .null .null "D100" ["D101"]
        (by decide) (by decide) (by decide) (by decide)).2 (Or.inl rfl)]
      decide⟩

/-- C18, no request stranded, evaluated on the code: two requests are
submitted against a connected codec, so the first is in flight and the second
waits in the backlog; the codec completes the first, before its timeout, with
an error object whose own property `toString` is not a function.  The callback
has released `isBusy` when line 198 throws and never reaches the lines that
hand the backlog to `setImmediate`: the second request waits, `isBusy` is
clear, no deferred dispatch is pending, no read is in flight, no timer is
armed and no continuation has been invoked. -/
theorem request_stranded_when_toString_throws :
    (run (mcConnectionNode plainConfig 0) throwingCompletion).map
        (fun node => (node.readQueue, node.isBusy, node.immediates, inFlight node)) =
      some ([{ id := 1, addressArray := ["D101"] }], false, [], []) ∧
    (run (mcConnectionNode plainConfig 0) throwingCompletion).map
        (fun node => (node.ops.map Op.timerArmed, invoked node.trace,
          node.isoConnectionState)) =
      some ([false], [], 4) := by
  decide

/-- C19, the queue's own errors in the reads node, evaluated on the code:
`'Connection not available'` passes the vocabulary test and the reads node
sets its `conStatus` to `'disconnected'`; `'Read operation timed out'`
contains none of "not connected", "connection", "disconnected", "timeout"
("timed out" is not "timeout"), so the reads node only reports the error and
keeps `conStatus = 'connected'`. -/
theorem timeout_error_not_recognised :
    isConnectionError (.str "Connection not available") = true ∧
      isConnectionError (.str "Read operation timed out") = false ∧
      (valuesReady (jsonReads ["D100"]) (.str "Connection not available") .null).conStatus =
        .disconnected ∧
      (valuesReady (jsonReads ["D100"]) (.str "Read operation timed out") .null).conStatus =
        .connected ∧
      (valuesReady (jsonReads ["D100"]) (.str "Read operation timed out") .null).out.drop
          (jsonReads ["D100"]).out.length =
        [.error "An error occurred while reading values from plc: Read operation timed out"] := by
  decide

/-- C20, no link-open after shutdown, evaluated on the code: a connect error
arms a reconnect timer and the close handler runs; `conStatus` is
`'disconnected'`, one link-open has been issued since the node was created,
and the timer is still armed, for the close handler does not cancel it.  The
timer fires: `reconnect` finds `conStatus` different from `'connecting'`,
moves it to `'connecting'` with a change event and issues `dropConnection` and
`initiateConnection`, a second link-open, after the listeners were removed. -/
theorem link_opened_after_shutdown :
    (run (mcConnectionNode plainConfig 0) [.connectError "ECONNRESET", .close]).map
        (fun node => (node.conStatus, linkOpens node.trace, node.reconnectTimers,
          node.trace.length)) =
      some (.disconnected, 1, 1, 9) ∧
    (run (mcConnectionNode plainConfig 0)
        [.connectError "ECONNRESET", .close, .reconnectTimer .ok]).map
        (fun node => (node.conStatus, linkOpens node.trace, node.trace.drop 8)) =
      some (.connecting, 2,
        [.removeAllListeners, .emit .connecting, .dropConnection, .initiateConnection]) := by
  decide

end MCConnection
